import Mathlib

/-
  Verification of the connection-multiplexing core of a single-threaded TCP
  port forwarder (portfwd.c).

  The embedding follows the source file closely:

  * Socket handles are natural numbers; the INVALID_SOCKET sentinel is
    modelled by Option (none = INVALID_SOCKET).
  * The per-slot state (conn_in, conn_out, backlog_in, backlog_out with
    their size and pos bookkeeping, C int typed) becomes a Slot record;
    the parallel C arrays indexed by connection number become a function
    from slot index to Slot.
  * Byte regions (the malloc-ed backlog buffers and the scratch buffer)
    are functions from Int to Nat together with explicit size and pos
    fields, exactly as in the C bookkeeping.  memcpy becomes writeBytes.
  * All socket system calls (accept, connect, recv, send, select) are
    external: their results are inputs, collected in an Oracle record.
    The POSIX contracts the code relies on (send transfers at most the
    requested count, recv fills at most the passed buffer size, select
    only clears bits of the interest set) appear either structurally
    (set intersection for select) or as hypotheses (OracleOK).
  * Every ERR(...) site, which prints and calls exit(EXIT_FAILURE),
    becomes an Except error carrying a Fatal tag naming the site.
-/

namespace Portfwd

abbrev Socket := Nat

/-- The direction enum of the source: IN is the client side connection,
OUT is the server side connection. -/
inductive Direction
  | IN
  | OUT
deriving DecidableEq, Repr

def Direction.flip : Direction → Direction
  | .IN => .OUT
  | .OUT => .IN

/-- BACKLOG_SIZE from the source (also the size of the scratch buffer in
bounce). -/
def BACKLOG_SIZE : Int := 65530

/-- One backlog buffer: the byte region (fixed allocation of
BACKLOG_SIZE bytes), the current length of unsent data and the read
offset, both C ints. -/
structure Backlog where
  region : Int → Nat
  size : Int
  pos : Int

/-- One connection slot: the two socket handles and the two backlog
buffers (backlog_in belongs to direction IN, i.e. data to be sent on
conn_in; backlog_out to direction OUT). -/
structure Slot where
  conn_in : Option Socket
  conn_out : Option Socket
  backlog_in : Backlog
  backlog_out : Backlog

def Slot.conn (sl : Slot) : Direction → Option Socket
  | .IN => sl.conn_in
  | .OUT => sl.conn_out

def Slot.backlog (sl : Slot) : Direction → Backlog
  | .IN => sl.backlog_in
  | .OUT => sl.backlog_out

def Slot.setBacklog (sl : Slot) : Direction → Backlog → Slot
  | .IN, b => { sl with backlog_in := b }
  | .OUT, b => { sl with backlog_out := b }

/-- The global mutable state of the program: max_connections,
active_connections, the listening socket and the slot table. -/
structure State where
  max_connections : Int
  active_connections : Int
  sockin : Socket
  slots : Nat → Slot

def State.setSlot (st : State) (n : Nat) (sl : Slot) : State :=
  { st with slots := fun j => if j = n then sl else st.slots j }

/-- The ERR(...) sites of the source, i.e. the conditions on which the
process prints a message and exits with EXIT_FAILURE. -/
inductive Fatal
  | backlogExceeded
  | inconsistency
  | enqueueFail
  | outSocketFail
  | selectError
  | selectTimeout
deriving DecidableEq, Repr

/-- memcpy into a byte region at a given offset. -/
def writeBytes : (Int → Nat) → Int → List Nat → (Int → Nat)
  | r, _, [] => r
  | r, k, b :: bs => writeBytes (fun x => if x = k then b else r x) (k + 1) bs

/-- Read len consecutive bytes of a region starting at a given offset. -/
def readBytes : (Int → Nat) → Int → Nat → List Nat
  | _, _, 0 => []
  | r, k, Nat.succ len => r k :: readBytes r (k + 1) len

/-- kill_connection: close both sockets, zero all four backlog
counters, mark both handles INVALID, decrement active_connections. -/
def kill_connection (st : State) (n : Nat) : State :=
  let sl := st.slots n
  { st.setSlot n
      { conn_in := none
        conn_out := none
        backlog_in := { sl.backlog_in with size := 0, pos := 0 }
        backlog_out := { sl.backlog_out with size := 0, pos := 0 } } with
    active_connections := st.active_connections - 1 }

/-- add_backlog: fatal if pos + size + bufsize would exceed
BACKLOG_SIZE, otherwise memcpy the bufsize bytes of buf to
region + pos + size and grow size by bufsize. -/
def add_backlog (st : State) (n : Nat) (dir : Direction)
    (buf : List Nat) (bufsize : Int) : Except Fatal State :=
  let b := (st.slots n).backlog dir
  if BACKLOG_SIZE < b.pos + b.size + bufsize then
    Except.error Fatal.backlogExceeded
  else
    Except.ok (st.setSlot n ((st.slots n).setBacklog dir
      { b with
        region := writeBytes b.region (b.pos + b.size) (buf.take bufsize.toNat)
        size := b.size + bufsize }))

/-- flush_backlog: sent is the result of the non-blocking send of the
size bytes at region + pos.  A result below 1 kills the connection;
otherwise size shrinks by sent and pos resets to 0 when size reaches 0,
else advances by sent. -/
def flush_backlog (st : State) (n : Nat) (dir : Direction) (sent : Int) : State :=
  if sent < 1 then kill_connection st n
  else
    let b := (st.slots n).backlog dir
    let ns := b.size - sent
    st.setSlot n ((st.slots n).setBacklog dir
      (if ns = 0 then { b with size := ns, pos := 0 }
       else { b with size := ns, pos := b.pos + sent }))

/-- bounce: recvd is the result of recv into the BACKLOG_SIZE scratch
buffer, buf its contents, sent the result of the non-blocking send of
those recvd bytes.  A recv or send result below 1 kills the connection;
a partial send appends the remainder buf + sent of length recvd - sent
to the backlog of this slot and direction. -/
def bounce (st : State) (n : Nat) (dir : Direction)
    (recvd : Int) (buf : List Nat) (sent : Int) : Except Fatal State :=
  if recvd < 1 then Except.ok (kill_connection st n)
  else if sent < 1 then Except.ok (kill_connection st n)
  else if sent < recvd then
    add_backlog st n dir (buf.drop sent.toNat) (recvd - sent)
  else Except.ok st

/-- valid_socket: 1 when both handles are set, 0 when both are
INVALID, fatal internal inconsistency when exactly one is set. -/
def valid_socket (st : State) (i : Nat) : Except Fatal Bool :=
  match (st.slots i).conn_in, (st.slots i).conn_out with
  | some _, some _ => Except.ok true
  | none, none => Except.ok false
  | _, _ => Except.error Fatal.inconsistency

/-- The enqueue search of accept_incoming: first slot with both
handles INVALID. -/
def findFree (st : State) : Option Nat :=
  (List.range st.max_connections.toNat).find?
    (fun i => decide ((st.slots i).conn_in = none) &&
              decide ((st.slots i).conn_out = none))

/-- accept_incoming.  accRes is the accept result (none when accept
returned a negative value, in which case the function just returns);
outRes stands for the creation and synchronous connect of the outgoing
socket (none when either fails, which is fatal).  The counter is
incremented first; if it now exceeds max_connections the fresh socket
is closed again and the counter decremented.  Otherwise the first free
slot is searched (fatal if none), the outgoing connection made, and
both handles installed. -/
def accept_incoming (st : State) (accRes : Option Socket)
    (outRes : Option Socket) : Except Fatal State :=
  match accRes with
  | none => Except.ok st
  | some incoming =>
    let st1 := { st with active_connections := st.active_connections + 1 }
    if st1.max_connections < st1.active_connections then
      Except.ok { st1 with active_connections := st1.active_connections - 1 }
    else
      match findFree st1 with
      | none => Except.error Fatal.enqueueFail
      | some curr =>
        match outRes with
        | none => Except.error Fatal.outSocketFail
        | some outgoing =>
          Except.ok (st1.setSlot curr
            { st1.slots curr with
              conn_in := some incoming
              conn_out := some outgoing })

/-- fd_set, modelled as its membership function over socket handles. -/
abbrev fdset := Socket → Bool

def fdEmpty : fdset := fun _ => false

def fdAdd (f : fdset) (s : Socket) : fdset :=
  fun x => if x = s then true else f x

def fdDel (f : fdset) (s : Socket) : fdset :=
  fun x => if x = s then false else f x

def fdInter (f g : fdset) : fdset := fun x => f x && g x

def fdUnion (f g : fdset) : fdset := fun x => f x || g x

def isSet (f : fdset) : Option Socket → Bool
  | some s => f s
  | none => false

/-- One dispatch step of the poll loop, as recorded for the ordering
theorems: which operation ran for a slot, with the backlog bookkeeping
of that direction at the time of the call. -/
inductive Event
  | flush (d : Direction) (sizeAtCall : Int)
  | bounce (d : Direction) (sizeAtCall : Int) (posAtCall : Int)
deriving DecidableEq, Repr

/-- External socket results consumed by one slot during the dispatch
part of one poll_conn iteration: the send results for the two possible
backlog flushes (as a function of the requested length, i.e. the
backlog size at the time of the call) and recv result, recv bytes and
send result for the two possible bounce calls. -/
structure SlotEnv where
  flushInSent : Int → Int
  flushOutSent : Int → Int
  bounceOutRecvd : Int
  bounceOutBuf : List Nat
  bounceOutSent : Int
  bounceInRecvd : Int
  bounceInBuf : List Nat
  bounceInSent : Int

/-- All external inputs of one poll_conn iteration: the ready sets
reported by the two select calls, their error indications, the accept
and connect results, and the per slot recv/send results. -/
structure Oracle where
  ready1r : fdset
  ready1w : fdset
  ready2r : fdset
  ready2w : fdset
  sel1err : Bool
  sel2err : Bool
  sel2zero : Bool
  accRes : Option Socket
  outRes : Option Socket
  slotEnv : Nat → SlotEnv

/-- The backlog flush attempt for one slot and direction in the
dispatch loop: if the handle of the direction is set, that backlog is
non-empty and the handle is in the stage 2 write set, the handle is
cleared from the write set (FD_CLR) and flush_backlog runs. -/
def try_flush (st : State) (w2 : fdset) (i : Nat) (d : Direction)
    (sentFn : Int → Int) : State × fdset × List Event :=
  match (st.slots i).conn d with
  | some c =>
    if ((st.slots i).backlog d).size ≠ 0 ∧ w2 c = true then
      (flush_backlog st i d (sentFn ((st.slots i).backlog d).size),
       fdDel w2 c,
       [Event.flush d ((st.slots i).backlog d).size])
    else (st, w2, [])
  | none => (st, w2, [])

/-- The plain forwarding attempt for one slot and direction in the
dispatch loop: guarded by valid_socket, read readiness of the source
handle (direction d.flip) and write readiness of the destination
handle (direction d) in the current stage 2 sets. -/
def try_bounce (st : State) (r2 w2cur : fdset) (i : Nat) (d : Direction)
    (recvd : Int) (buf : List Nat) (sent : Int) :
    Except Fatal (State × List Event) :=
  match valid_socket st i with
  | Except.error f => Except.error f
  | Except.ok v =>
    if v = true ∧ isSet r2 ((st.slots i).conn d.flip) = true ∧
        isSet w2cur ((st.slots i).conn d) = true then
      match bounce st i d recvd buf sent with
      | Except.error f => Except.error f
      | Except.ok st2 =>
        Except.ok (st2,
          [Event.bounce d ((st.slots i).backlog d).size
            ((st.slots i).backlog d).pos])
    else Except.ok (st, [])

/-- The body of the final dispatch loop of poll_conn for one slot:
flush the IN backlog, flush the OUT backlog, then plain forwarding
client to server (direction OUT) and server to client (direction IN),
in the order of the source. -/
def dispatch_slot (st : State) (r2 w2 : fdset) (i : Nat) (env : SlotEnv) :
    Except Fatal (State × fdset × List Event) :=
  let p1 := try_flush st w2 i Direction.IN env.flushInSent
  let p2 := try_flush p1.1 p1.2.1 i Direction.OUT env.flushOutSent
  match try_bounce p2.1 r2 p2.2.1 i Direction.OUT
      env.bounceOutRecvd env.bounceOutBuf env.bounceOutSent with
  | Except.error f => Except.error f
  | Except.ok (st3, e3) =>
    match try_bounce st3 r2 p2.2.1 i Direction.IN
        env.bounceInRecvd env.bounceInBuf env.bounceInSent with
    | Except.error f => Except.error f
    | Except.ok (st4, e4) =>
      Except.ok (st4, p2.2.1, p1.2.2 ++ p2.2.2 ++ e3 ++ e4)

/-- The dispatch loop over the given slot indices, threading the state
and the stage 2 write set (whose bits the flushes clear) and tagging
each recorded event with its slot. -/
def dispatch_go (r2 : fdset) (envs : Nat → SlotEnv) :
    State → fdset → List Nat → Except Fatal (State × fdset × List (Nat × Event))
  | st, w2, [] => Except.ok (st, w2, [])
  | st, w2, i :: rest =>
    match dispatch_slot st r2 w2 i (envs i) with
    | Except.error f => Except.error f
    | Except.ok (st2, w2b, evs) =>
      match dispatch_go r2 envs st2 w2b rest with
      | Except.error f => Except.error f
      | Except.ok (st3, w2c, evs2) =>
        Except.ok (st3, w2c, evs.map (fun e => (i, e)) ++ evs2)

/-- The final dispatch loop of poll_conn over all slot indices,
dropping the write set from the result. -/
def dispatch_top (st1 : State) (r2m w2m : fdset) (envs : Nat → SlotEnv) :
    Except Fatal (State × List (Nat × Event)) :=
  match dispatch_go r2m envs st1 w2m
      (List.range st1.max_connections.toNat) with
  | Except.error f => Except.error f
  | Except.ok (st2, _, evs) => Except.ok (st2, evs)

/-- Stage 1 interest building: every handle of every valid slot is
polled for both read and write readiness.  The Bool component records
whether any valid slot exists (the max_fd test guarding the stage 1
select, under the assumption that live socket handles are positive). -/
def stage1_go (st : State) :
    fdset × fdset × Bool → List Nat → Except Fatal (fdset × fdset × Bool)
  | acc, [] => Except.ok acc
  | acc, i :: rest =>
    match valid_socket st i with
    | Except.error f => Except.error f
    | Except.ok v =>
      match v, (st.slots i).conn_in, (st.slots i).conn_out with
      | true, some cin, some cout =>
        stage1_go st
          (fdAdd (fdAdd acc.1 cin) cout,
           fdAdd (fdAdd acc.2.1 cin) cout, true) rest
      | _, _, _ => stage1_go st acc rest

def stage1_interest (st : State) : Except Fatal (fdset × fdset × Bool) :=
  stage1_go st (fdEmpty, fdEmpty, false)
    (List.range st.max_connections.toNat)

/-- Stage 2 interest building for the slots: write interest for
non-empty backlogs, read interest on a handle whose peer was writable
in stage 1 with an empty backlog in that direction, write interest on
the peer of a handle readable in stage 1. -/
def stage2_go (st : State) (r1 w1 : fdset) :
    fdset × fdset → List Nat → Except Fatal (fdset × fdset)
  | acc, [] => Except.ok acc
  | acc, i :: rest =>
    match valid_socket st i with
    | Except.error f => Except.error f
    | Except.ok v =>
      match v, (st.slots i).conn_in, (st.slots i).conn_out with
      | true, some cin, some cout =>
        let r2 := acc.1
        let w2 := acc.2
        let w2a := if (st.slots i).backlog_in.size ≠ 0 then fdAdd w2 cin else w2
        let w2b := if (st.slots i).backlog_out.size ≠ 0 then fdAdd w2a cout else w2a
        let r2a := if w1 cin = true ∧ (st.slots i).backlog_in.size = 0
                   then fdAdd r2 cout else r2
        let r2b := if w1 cout = true ∧ (st.slots i).backlog_out.size = 0
                   then fdAdd r2a cin else r2a
        let w2c := if r1 cin = true then fdAdd w2b cout else w2b
        let w2d := if r1 cout = true then fdAdd w2c cin else w2c
        stage2_go st r1 w1 (r2b, w2d) rest
      | _, _, _ => stage2_go st r1 w1 acc rest

/-- Stage 2 interest sets: the listening socket is polled for read
exactly when another connection can be accepted, then the per slot
rules are applied. -/
def stage2_interest (st : State) (r1 w1 : fdset) : Except Fatal (fdset × fdset) :=
  stage2_go st r1 w1
    ((if st.active_connections < st.max_connections
      then fdAdd fdEmpty st.sockin else fdEmpty), fdEmpty)
    (List.range st.max_connections.toNat)

/-- One iteration of poll_conn: stage 1 zero-timeout snapshot, stage 2
interest building and blocking select, accept dispatch, merge of the
stage 1 results into the stage 2 results, and the per slot dispatch
loop.  The select results are the intersection of the interest set
with the ready set reported by the oracle (select only clears bits).
The merge loop over fd numbers up to max_fd is modelled as a plain
union: every handle of interest is below max_fd by construction. -/
def poll_conn (st : State) (o : Oracle) :
    Except Fatal (State × List (Nat × Event)) :=
  match stage1_interest st with
  | Except.error f => Except.error f
  | Except.ok (r1i, w1i, hasAny) =>
    if hasAny = true ∧ o.sel1err = true then Except.error Fatal.selectError
    else
      let r1 := if hasAny then fdInter r1i o.ready1r else fdEmpty
      let w1 := if hasAny then fdInter w1i o.ready1w else fdEmpty
      match stage2_interest st r1 w1 with
      | Except.error f => Except.error f
      | Except.ok (r2i, w2i) =>
        if o.sel2zero = true then Except.error Fatal.selectTimeout
        else if o.sel2err = true then Except.error Fatal.selectError
        else
          let r2 := fdInter r2i o.ready2r
          let w2 := fdInter w2i o.ready2w
          match (if r2 st.sockin = true
                 then accept_incoming st o.accRes o.outRes
                 else Except.ok st) with
          | Except.error f => Except.error f
          | Except.ok st1 =>
            dispatch_top st1 (fdUnion r2 r1) (fdUnion w2 w1) o.slotEnv

/-- The state set up by main before the loop: counters INVALID, all
backlog counters zero (the malloc-ed regions are uninitialised; their
content is modelled as zero bytes). -/
def init_state (maxc : Int) (sockin : Socket) : State :=
  { max_connections := maxc
    active_connections := 0
    sockin := sockin
    slots := fun _ =>
      { conn_in := none
        conn_out := none
        backlog_in := { region := fun _ => 0, size := 0, pos := 0 }
        backlog_out := { region := fun _ => 0, size := 0, pos := 0 } } }

/-- Digit-accumulating loop of C atoi. -/
def atoiDigits : Int → List Char → Int
  | acc, [] => acc
  | acc, c :: rest =>
    if c.isDigit then atoiDigits (acc * 10 + ((c.toNat : Int) - 48)) rest
    else acc

/-- C atoi: optional leading whitespace, optional sign, leading digit
run (0 when there is none).  Modelled over unbounded integers. -/
def atoi (s : String) : Int :=
  match s.data.dropWhile Char.isWhitespace with
  | [] => 0
  | c :: rest =>
    if c = '-' then - atoiDigits 0 rest
    else if c = '+' then atoiDigits 0 rest
    else atoiDigits 0 (c :: rest)

/-- The scan of argv[2] for the first colon in main: the characters
before it (the remote host, argv[2] truncated in place) and, when a
colon exists, the characters after it. -/
def splitColon : List Char → List Char × Option (List Char)
  | [] => ([], none)
  | c :: rest =>
    if c = ':' then ([], some rest)
    else
      let p := splitColon rest
      (c :: p.1, p.2)

/-- The configuration main hands to the relay core when it does not
exit first. -/
structure Config where
  localport : Int
  remotehost : List Char
  remoteport : Int
  max_connections : Int
  verbose : Bool
deriving DecidableEq, Repr

/-- The three outcomes of the argument handling in main: usage text
with EXIT_SUCCESS, an invalid-argument message with EXIT_FAILURE, or a
configuration for the relay. -/
inductive ParseOutcome
  | usage
  | fail
  | ok (cfg : Config)
deriving DecidableEq, Repr

/-- The argument handling of main, lines 526 to 598 of the source:
usage on fewer than two arguments; local port rejected only when atoi
gives 0; remote target must contain a colon followed by a non-empty
remainder whose atoi is non-zero; optional -v, or -max x with
1 <= x <= 65535 followed by an optional -v; max_connections defaults
to 10. -/
def parse_args (argv : List String) : ParseOutcome :=
  if argv.length < 3 then ParseOutcome.usage
  else
    let localport := atoi (argv.getD 1 "")
    if localport = 0 then ParseOutcome.fail
    else
      let p := splitColon (argv.getD 2 "").data
      match p.2 with
      | none => ParseOutcome.fail
      | some rest =>
        if rest = [] then ParseOutcome.fail
        else
          let remoteport := atoi (String.mk rest)
          if remoteport = 0 then ParseOutcome.fail
          else
            if 3 < argv.length then
              if argv.getD 3 "" = "-v" then
                ParseOutcome.ok
                  { localport := localport, remotehost := p.1
                    remoteport := remoteport, max_connections := 10
                    verbose := true }
              else if argv.getD 3 "" ≠ "-max" then ParseOutcome.fail
              else if argv.length < 5 then ParseOutcome.fail
              else
                let maxc := atoi (argv.getD 4 "")
                if maxc < 1 ∨ 65535 < maxc then ParseOutcome.fail
                else
                  ParseOutcome.ok
                    { localport := localport, remotehost := p.1
                      remoteport := remoteport, max_connections := maxc
                      verbose := 5 < argv.length ∧ argv.getD 5 "" = "-v" }
            else
              ParseOutcome.ok
                { localport := localport, remotehost := p.1
                  remoteport := remoteport, max_connections := 10
                  verbose := false }

/- Basic lemmas about the state and slot updates. -/

@[simp]
lemma slots_setSlot_self (st : State) (n : Nat) (sl : Slot) :
    (st.setSlot n sl).slots n = sl := by
  simp [State.setSlot]

lemma slots_setSlot_ne (st : State) (n m : Nat) (sl : Slot) (h : m ≠ n) :
    (st.setSlot n sl).slots m = st.slots m := by
  simp [State.setSlot, h]

@[simp]
lemma max_setSlot (st : State) (n : Nat) (sl : Slot) :
    (st.setSlot n sl).max_connections = st.max_connections := rfl

@[simp]
lemma active_setSlot (st : State) (n : Nat) (sl : Slot) :
    (st.setSlot n sl).active_connections = st.active_connections := rfl

@[simp]
lemma sockin_setSlot (st : State) (n : Nat) (sl : Slot) :
    (st.setSlot n sl).sockin = st.sockin := rfl

@[simp]
lemma conn_setBacklog (sl : Slot) (d e : Direction) (b : Backlog) :
    (sl.setBacklog d b).conn e = sl.conn e := by
  cases d <;> cases e <;> rfl

@[simp]
lemma conn_in_setBacklog (sl : Slot) (d : Direction) (b : Backlog) :
    (sl.setBacklog d b).conn_in = sl.conn_in := by
  cases d <;> rfl

@[simp]
lemma conn_out_setBacklog (sl : Slot) (d : Direction) (b : Backlog) :
    (sl.setBacklog d b).conn_out = sl.conn_out := by
  cases d <;> rfl

@[simp]
lemma backlog_setBacklog_self (sl : Slot) (d : Direction) (b : Backlog) :
    (sl.setBacklog d b).backlog d = b := by
  cases d <;> rfl

lemma backlog_setBacklog_ne (sl : Slot) (d e : Direction) (b : Backlog)
    (h : e ≠ d) : (sl.setBacklog d b).backlog e = sl.backlog e := by
  cases d <;> cases e <;> simp_all [Slot.setBacklog, Slot.backlog]

@[simp]
lemma flip_flip (d : Direction) : d.flip.flip = d := by cases d <;> rfl

lemma flip_ne (d : Direction) : d.flip ≠ d := by cases d <;> simp [Direction.flip]

/- Effect lemmas for kill_connection. -/

@[simp]
lemma kill_slots_self (st : State) (n : Nat) :
    (kill_connection st n).slots n =
      { conn_in := none, conn_out := none
        backlog_in := { (st.slots n).backlog_in with size := 0, pos := 0 }
        backlog_out := { (st.slots n).backlog_out with size := 0, pos := 0 } } := by
  simp [kill_connection, State.setSlot]

lemma kill_slots_ne (st : State) (n m : Nat) (h : m ≠ n) :
    (kill_connection st n).slots m = st.slots m := by
  simp [kill_connection, State.setSlot, h]

@[simp]
lemma kill_active (st : State) (n : Nat) :
    (kill_connection st n).active_connections = st.active_connections - 1 := rfl

@[simp]
lemma kill_max (st : State) (n : Nat) :
    (kill_connection st n).max_connections = st.max_connections := rfl

@[simp]
lemma kill_sockin (st : State) (n : Nat) :
    (kill_connection st n).sockin = st.sockin := rfl

/- Byte region lemmas. -/

lemma writeBytes_lt (l : List Nat) :
    ∀ (r : Int → Nat) (k x : Int), x < k → writeBytes r k l x = r x := by
  induction l with
  | nil => intro r k x _; rfl
  | cons b bs ih =>
    intro r k x hx
    simp only [writeBytes]
    rw [ih _ (k + 1) x (by omega)]
    simp [show x ≠ k by omega]

lemma readBytes_append (m n : Nat) :
    ∀ (r : Int → Nat) (k : Int),
      readBytes r k (m + n) = readBytes r k m ++ readBytes r (k + (m : Int)) n := by
  induction m with
  | zero => intro r k; simp [readBytes]
  | succ m ih =>
    intro r k
    have h : m + 1 + n = (m + n) + 1 := by omega
    rw [h]
    simp only [readBytes]
    rw [ih r (k + 1)]
    simp only [readBytes, List.cons_append]
    have h2 : k + 1 + (m : Int) = k + ((m : Nat) + 1 : Nat) := by push_cast; ring
    rw [h2]

lemma readBytes_congr (n : Nat) :
    ∀ (r r2 : Int → Nat) (k : Int),
      (∀ x, k ≤ x → x < k + (n : Int) → r x = r2 x) →
      readBytes r k n = readBytes r2 k n := by
  induction n with
  | zero => intro r r2 k _; rfl
  | succ n ih =>
    intro r r2 k h
    simp only [readBytes]
    rw [h k (le_refl k) (by push_cast; omega), ih r r2 (k + 1)]
    intro x hx1 hx2
    exact h x (by omega) (by push_cast at hx2 ⊢; omega)

lemma readBytes_writeBytes (l : List Nat) :
    ∀ (r : Int → Nat) (k : Int), readBytes (writeBytes r k l) k l.length = l := by
  induction l with
  | nil => intro r k; rfl
  | cons b bs ih =>
    intro r k
    simp only [List.length_cons, readBytes, writeBytes]
    have h1 : writeBytes (fun x => if x = k then b else r x) (k + 1) bs k = b := by
      rw [writeBytes_lt bs _ (k + 1) k (by omega)]
      simp
    rw [h1, ih _ (k + 1)]

/-- C1: in a relay step, when the read returns n bytes and the
non-blocking send transfers sent bytes with 1 <= sent < n, the unsent
remainder buf[sent .. n) is appended to the backlog buffer of this
slot and direction at region[pos + size ..], the length grows by
n - sent, and the pending backlog content afterwards is exactly the
old pending content followed by the remainder: nothing is dropped or
reordered. -/
theorem bounce_partial_send_appends_remainder
    (st : State) (n : Nat) (d : Direction) (recvd : Int) (buf : List Nat)
    (sent : Int)
    (hs : 1 ≤ sent) (hsr : sent < recvd)
    (hbuf : buf.length = recvd.toNat)
    (hsz : 0 ≤ ((st.slots n).backlog d).size)
    (hcap : ((st.slots n).backlog d).pos + ((st.slots n).backlog d).size +
      (recvd - sent) ≤ BACKLOG_SIZE) :
    ∃ st2, bounce st n d recvd buf sent = Except.ok st2 ∧
      (∀ m, m ≠ n → st2.slots m = st.slots m) ∧
      (st2.slots n).conn_in = (st.slots n).conn_in ∧
      (st2.slots n).conn_out = (st.slots n).conn_out ∧
      (st2.slots n).backlog d.flip = (st.slots n).backlog d.flip ∧
      ((st2.slots n).backlog d).size =
        ((st.slots n).backlog d).size + (recvd - sent) ∧
      ((st2.slots n).backlog d).pos = ((st.slots n).backlog d).pos ∧
      readBytes ((st2.slots n).backlog d).region ((st.slots n).backlog d).pos
          (((st.slots n).backlog d).size + (recvd - sent)).toNat =
        readBytes ((st.slots n).backlog d).region ((st.slots n).backlog d).pos
          ((st.slots n).backlog d).size.toNat ++ buf.drop sent.toNat := by
  have hr1 : ¬ recvd < 1 := by omega
  have hs1 : ¬ sent < 1 := by omega
  have hguard : ¬ BACKLOG_SIZE < ((st.slots n).backlog d).pos +
      ((st.slots n).backlog d).size + (recvd - sent) := by omega
  have hok : bounce st n d recvd buf sent = Except.ok (st.setSlot n
      ((st.slots n).setBacklog d
        { region := writeBytes ((st.slots n).backlog d).region
            (((st.slots n).backlog d).pos + ((st.slots n).backlog d).size)
            ((buf.drop sent.toNat).take (recvd - sent).toNat)
          size := ((st.slots n).backlog d).size + (recvd - sent)
          pos := ((st.slots n).backlog d).pos })) := by
    simp only [bounce, if_neg hr1, if_neg hs1, if_pos hsr, add_backlog,
      if_neg hguard]
  refine ⟨_, hok, ?_, ?_, ?_, ?_, ?_, ?_, ?_⟩
  · intro m hm
    exact slots_setSlot_ne _ _ _ _ hm
  · simp
  · simp
  · simp [backlog_setBacklog_ne _ _ _ _ (flip_ne d)]
  · simp
  · simp
  · simp only [slots_setSlot_self, backlog_setBacklog_self]
    have hlen : (buf.drop sent.toNat).length = (recvd - sent).toNat := by
      rw [List.length_drop, hbuf]; omega
    have htake : (buf.drop sent.toNat).take (recvd - sent).toNat =
        buf.drop sent.toNat := by
      rw [← hlen]; exact List.take_length _
    rw [htake]
    have hsplit : (((st.slots n).backlog d).size + (recvd - sent)).toNat =
        ((st.slots n).backlog d).size.toNat + (recvd - sent).toNat := by omega
    rw [hsplit, readBytes_append]
    have hcast : ((st.slots n).backlog d).pos +
        ((((st.slots n).backlog d).size.toNat : Nat) : Int) =
        ((st.slots n).backlog d).pos + ((st.slots n).backlog d).size := by
      omega
    congr 1
    · apply readBytes_congr
      intro x hx1 hx2
      rw [writeBytes_lt]
      omega
    · rw [hcast, ← hlen, readBytes_writeBytes]

/-- Witness for the partial-send theorem at a concrete input: a slot
with 3 pending bytes at offset 1, a read of 2 bytes of which 1 is
sent, leaving remainder [9]. -/
def bounceWitState : State :=
  { max_connections := 1
    active_connections := 1
    sockin := 1
    slots := fun _ =>
      { conn_in := some 2
        conn_out := some 3
        backlog_in := { region := fun _ => 0, size := 0, pos := 0 }
        backlog_out :=
          { region := fun x => if x = 1 then 4 else if x = 2 then 5 else if x = 3 then 6 else 0
            size := 3, pos := 1 } } }

theorem bounce_partial_send_appends_remainder_witness :
    (1 : Int) ≤ 1 ∧ (1 : Int) < 2 ∧
    ([8, 9] : List Nat).length = (2 : Int).toNat ∧
    0 ≤ ((bounceWitState.slots 0).backlog Direction.OUT).size ∧
    ((bounceWitState.slots 0).backlog Direction.OUT).pos +
      ((bounceWitState.slots 0).backlog Direction.OUT).size + ((2 : Int) - 1) ≤
      BACKLOG_SIZE ∧
    ∃ st2, bounce bounceWitState 0 Direction.OUT 2 [8, 9] 1 = Except.ok st2 ∧
      (∀ m, m ≠ 0 → st2.slots m = bounceWitState.slots m) ∧
      (st2.slots 0).conn_in = (bounceWitState.slots 0).conn_in ∧
      (st2.slots 0).conn_out = (bounceWitState.slots 0).conn_out ∧
      (st2.slots 0).backlog Direction.OUT.flip =
        (bounceWitState.slots 0).backlog Direction.OUT.flip ∧
      ((st2.slots 0).backlog Direction.OUT).size =
        ((bounceWitState.slots 0).backlog Direction.OUT).size + ((2 : Int) - 1) ∧
      ((st2.slots 0).backlog Direction.OUT).pos =
        ((bounceWitState.slots 0).backlog Direction.OUT).pos ∧
      readBytes ((st2.slots 0).backlog Direction.OUT).region
          ((bounceWitState.slots 0).backlog Direction.OUT).pos
          (((bounceWitState.slots 0).backlog Direction.OUT).size + ((2 : Int) - 1)).toNat =
        readBytes ((bounceWitState.slots 0).backlog Direction.OUT).region
          ((bounceWitState.slots 0).backlog Direction.OUT).pos
          ((bounceWitState.slots 0).backlog Direction.OUT).size.toNat ++
          ([8, 9] : List Nat).drop (1 : Int).toNat :=
  ⟨by norm_num, by norm_num, by decide, by decide, by decide,
   bounce_partial_send_appends_remainder bounceWitState 0 Direction.OUT 2 [8, 9] 1
     (by norm_num) (by norm_num) (by decide) (by decide) (by decide)⟩

/-- The capacity part of the backlog invariant: both bookkeeping
fields are non-negative and offset plus length never exceeds the
capacity. -/
def withinCap (b : Backlog) : Prop :=
  0 ≤ b.size ∧ 0 ≤ b.pos ∧ b.pos + b.size ≤ BACKLOG_SIZE

/-- C2: a successful drain of s >= 1 bytes subtracts s from the
length, resets the offset to 0 when the length reaches 0 and otherwise
advances it by s without compacting the region; and every operation on
a backlog buffer (append, drain, teardown) preserves the invariant
that offset and length are non-negative with offset + length at most
the capacity. -/
theorem backlog_invariant_and_drain :
    (∀ st n d s, 1 ≤ s →
      (((flush_backlog st n d s).slots n).backlog d).size =
        ((st.slots n).backlog d).size - s ∧
      (((flush_backlog st n d s).slots n).backlog d).pos =
        (if ((st.slots n).backlog d).size - s = 0 then 0
         else ((st.slots n).backlog d).pos + s) ∧
      (((flush_backlog st n d s).slots n).backlog d).region =
        ((st.slots n).backlog d).region) ∧
    (∀ st n d buf bufsize st2, add_backlog st n d buf bufsize = Except.ok st2 →
      0 ≤ bufsize → (∀ m e, withinCap ((st.slots m).backlog e)) →
      ∀ m e, withinCap ((st2.slots m).backlog e)) ∧
    (∀ st n d s, (∀ m e, withinCap ((st.slots m).backlog e)) →
      (1 ≤ s → s ≤ ((st.slots n).backlog d).size) →
      ∀ m e, withinCap (((flush_backlog st n d s).slots m).backlog e)) ∧
    (∀ st n, (∀ m e, withinCap ((st.slots m).backlog e)) →
      ∀ m e, withinCap (((kill_connection st n).slots m).backlog e)) := by
  refine ⟨?_, ?_, ?_, ?_⟩
  · intro st n d s hs
    have hs1 : ¬ s < 1 := by omega
    simp only [flush_backlog, if_neg hs1, slots_setSlot_self,
      backlog_setBacklog_self]
    split <;> simp_all
  · intro st n d buf bufsize st2 hok hbs hpre m e
    simp only [add_backlog] at hok
    split at hok
    · exact absurd hok (by simp)
    · rename_i hguard
      have hst2 : st2 = st.setSlot n ((st.slots n).setBacklog d
          { (st.slots n).backlog d with
            region := writeBytes ((st.slots n).backlog d).region
              (((st.slots n).backlog d).pos + ((st.slots n).backlog d).size)
              (buf.take bufsize.toNat)
            size := ((st.slots n).backlog d).size + bufsize }) := by
        cases hok; rfl
      subst hst2
      by_cases hm : m = n
      · subst hm
        by_cases he : e = d
        · subst he
          have := hpre m e
          simp only [slots_setSlot_self, backlog_setBacklog_self, withinCap] at *
          push_neg at hguard
          omega
        · simp only [slots_setSlot_self,
            backlog_setBacklog_ne _ _ _ _ he]
          exact hpre m e
      · rw [slots_setSlot_ne _ _ _ _ hm]
        exact hpre m e
  · intro st n d s hpre hcontract m e
    by_cases hs : s < 1
    · simp only [flush_backlog, if_pos hs]
      by_cases hm : m = n
      · subst hm
        cases e <;> simp [withinCap, BACKLOG_SIZE, Slot.backlog]
      · rw [kill_slots_ne _ _ _ hm]
        exact hpre m e
    · have hss : 1 ≤ s := by omega
      have hle := hcontract hss
      simp only [flush_backlog, if_neg hs]
      by_cases hm : m = n
      · subst hm
        by_cases he : e = d
        · subst he
          obtain ⟨h1, h2, h3⟩ := hpre m e
          simp only [slots_setSlot_self, backlog_setBacklog_self, withinCap]
          split
          all_goals refine ⟨?_, ?_, ?_⟩ <;>
            simp only [BACKLOG_SIZE] at h3 ⊢ <;> omega
        · simp only [slots_setSlot_self,
            backlog_setBacklog_ne _ _ _ _ he]
          exact hpre m e
      · rw [slots_setSlot_ne _ _ _ _ hm]
        exact hpre m e
  · intro st n hpre m e
    by_cases hm : m = n
    · subst hm
      cases e <;> simp [withinCap, BACKLOG_SIZE, Slot.backlog]
    · rw [kill_slots_ne _ _ _ hm]
      exact hpre m e

theorem backlog_invariant_and_drain_witness :
    (1 : Int) ≤ 2 ∧
    (((flush_backlog bounceWitState 0 Direction.OUT 2).slots 0).backlog
        Direction.OUT).size =
      ((bounceWitState.slots 0).backlog Direction.OUT).size - 2 ∧
    (((flush_backlog bounceWitState 0 Direction.OUT 2).slots 0).backlog
        Direction.OUT).pos =
      (if ((bounceWitState.slots 0).backlog Direction.OUT).size - 2 = 0 then 0
       else ((bounceWitState.slots 0).backlog Direction.OUT).pos + 2) ∧
    (((flush_backlog bounceWitState 0 Direction.OUT 2).slots 0).backlog
        Direction.OUT).region =
      ((bounceWitState.slots 0).backlog Direction.OUT).region :=
  ⟨by norm_num,
   backlog_invariant_and_drain.1 bounceWitState 0 Direction.OUT 2 (by norm_num)⟩

/-- C7: a per-connection failure tears down only the affected slot.
kill_connection leaves every other slot completely unchanged, clears
exactly the two handles and the backlog bookkeeping of the failed
slot, decrements the active count, and the failure paths of
flush_backlog (send result below 1) and bounce (recv or send result
below 1) are exactly kill_connection of that slot. -/
theorem kill_connection_local_frame :
    (∀ st n m, m ≠ n → (kill_connection st n).slots m = st.slots m) ∧
    (∀ st n,
      ((kill_connection st n).slots n).conn_in = none ∧
      ((kill_connection st n).slots n).conn_out = none ∧
      ((kill_connection st n).slots n).backlog_in.size = 0 ∧
      ((kill_connection st n).slots n).backlog_in.pos = 0 ∧
      ((kill_connection st n).slots n).backlog_out.size = 0 ∧
      ((kill_connection st n).slots n).backlog_out.pos = 0 ∧
      (kill_connection st n).active_connections = st.active_connections - 1 ∧
      (kill_connection st n).max_connections = st.max_connections ∧
      (kill_connection st n).sockin = st.sockin) ∧
    (∀ st n d s, s < 1 → flush_backlog st n d s = kill_connection st n) ∧
    (∀ st n d recvd buf sent, recvd < 1 →
      bounce st n d recvd buf sent = Except.ok (kill_connection st n)) ∧
    (∀ st n d recvd buf sent, 1 ≤ recvd → sent < 1 →
      bounce st n d recvd buf sent = Except.ok (kill_connection st n)) := by
  refine ⟨?_, ?_, ?_, ?_, ?_⟩
  · intro st n m hm
    exact kill_slots_ne st n m hm
  · intro st n
    simp
  · intro st n d s hs
    simp [flush_backlog, if_pos hs]
  · intro st n d recvd buf sent h
    simp [bounce, if_pos h]
  · intro st n d recvd buf sent h1 h2
    have : ¬ recvd < 1 := by omega
    simp [bounce, if_neg this, if_pos h2]

theorem kill_connection_local_frame_witness :
    (1 : Nat) ≠ 0 ∧ (kill_connection bounceWitState 0).slots 1 = bounceWitState.slots 1 :=
  ⟨by decide, kill_connection_local_frame.1 bounceWitState 0 1 (by decide)⟩

/-- C10 counterexample: the argument vector with local port 70000 is
accepted (the relay starts with localport = 70000), although 70000 is
outside 1..65535.  main only rejects a local port whose atoi value is
exactly 0. -/
theorem arg_validation_counterexample :
    parse_args ["portfwd", "70000", "10.1.2.3:80"] =
      ParseOutcome.ok
        { localport := 70000
          remotehost := ['1', '0', '.', '1', '.', '2', '.', '3']
          remoteport := 80
          max_connections := 10
          verbose := false } ∧
    ¬ ((1 : Int) ≤ 70000 ∧ (70000 : Int) ≤ 65535) := by
  constructor
  · rfl
  · intro h
    omega

/-- C10 amended: every accepted configuration has a non-zero (possibly
out of range or negative) local port, a non-zero remote port, and a
maximum connection count in 1..65535 defaulting to 10; arguments
outside those checks cause a failure exit before the relay starts. -/
theorem arg_validation_amended :
    ∀ argv cfg, parse_args argv = ParseOutcome.ok cfg →
      cfg.localport ≠ 0 ∧ cfg.remoteport ≠ 0 ∧
      1 ≤ cfg.max_connections ∧ cfg.max_connections ≤ 65535 := by
  intro argv cfg h
  simp only [parse_args] at h
  split at h
  · simp at h
  · split at h
    · simp at h
    · rename_i hport
      split at h
      · simp at h
      · split at h
        · simp at h
        · split at h
          · simp at h
          · rename_i hrp
            split at h
            · split at h
              · injection h with h2
                subst h2
                refine ⟨hport, hrp, ?_, ?_⟩
                · show (1 : Int) ≤ 10; norm_num
                · show (10 : Int) ≤ 65535; norm_num
              · split at h
                · simp at h
                · split at h
                  · simp at h
                  · split at h
                    · simp at h
                    · rename_i hmax
                      injection h with h2
                      subst h2
                      refine ⟨hport, hrp, ?_, ?_⟩
                      · show (1 : Int) ≤ atoi (argv.getD 4 ""); omega
                      · show atoi (argv.getD 4 "") ≤ 65535; omega
            · injection h with h2
              subst h2
              refine ⟨hport, hrp, ?_, ?_⟩
              · show (1 : Int) ≤ 10; norm_num
              · show (10 : Int) ≤ 65535; norm_num

theorem arg_validation_amended_witness :
    parse_args ["portfwd", "8080", "1.2.3.4:9"] =
      ParseOutcome.ok
        { localport := 8080
          remotehost := ['1', '.', '2', '.', '3', '.', '4']
          remoteport := 9
          max_connections := 10
          verbose := false } ∧
    ((8080 : Int) ≠ 0 ∧ (9 : Int) ≠ 0 ∧ (1 : Int) ≤ 10 ∧ (10 : Int) ≤ 65535) :=
  ⟨rfl, arg_validation_amended ["portfwd", "8080", "1.2.3.4:9"] _ rfl⟩

/- fd_set membership lemmas. -/

@[simp]
lemma fdEmpty_false (x : Socket) : fdEmpty x = false := rfl

lemma fdAdd_true_iff (f : fdset) (s0 x : Socket) :
    fdAdd f s0 x = true ↔ x = s0 ∨ f x = true := by
  by_cases h : x = s0 <;> simp [fdAdd, h]

lemma fdDel_true_iff (f : fdset) (s0 x : Socket) :
    fdDel f s0 x = true ↔ x ≠ s0 ∧ f x = true := by
  by_cases h : x = s0 <;> simp [fdDel, h]

@[simp]
lemma fdInter_true_iff (f g : fdset) (x : Socket) :
    fdInter f g x = true ↔ f x = true ∧ g x = true := by
  simp [fdInter]

@[simp]
lemma fdUnion_true_iff (f g : fdset) (x : Socket) :
    fdUnion f g x = true ↔ f x = true ∨ g x = true := by
  simp [fdUnion]

@[simp]
lemma isSet_some (f : fdset) (s : Socket) : isSet f (some s) = f s := rfl

@[simp]
lemma isSet_none (f : fdset) : isSet f none = false := rfl

/-- What the stage 2 slot loop can contribute to the read interest
set: the outbound handle when the inbound one was writable in stage 1
with empty IN backlog, and symmetrically. -/
def r2Contrib (st : State) (w1 : fdset) (i : Nat) (s : Socket) : Prop :=
  ∃ cin cout, (st.slots i).conn_in = some cin ∧
    (st.slots i).conn_out = some cout ∧
    ((s = cout ∧ w1 cin = true ∧ (st.slots i).backlog_in.size = 0) ∨
     (s = cin ∧ w1 cout = true ∧ (st.slots i).backlog_out.size = 0))

lemma stage2_go_total (st : State) (r1 w1 : fdset) :
    ∀ (L : List Nat) (acc : fdset × fdset),
      (∀ i ∈ L, ((st.slots i).conn_in = none ↔ (st.slots i).conn_out = none)) →
      ∃ r2f w2f, stage2_go st r1 w1 acc L = Except.ok (r2f, w2f) := by
  intro L
  induction L with
  | nil =>
    intro acc _
    exact ⟨acc.1, acc.2, by simp [stage2_go]⟩
  | cons i rest ih =>
    intro acc hbn
    have hbni := hbn i (by simp)
    have hrest : ∀ j ∈ rest, ((st.slots j).conn_in = none ↔ (st.slots j).conn_out = none) :=
      fun j hj => hbn j (by simp [hj])
    cases hin : (st.slots i).conn_in with
    | none =>
      have hout : (st.slots i).conn_out = none := hbni.mp hin
      simpa only [stage2_go, valid_socket, hin, hout] using ih acc hrest
    | some cin =>
      cases hout : (st.slots i).conn_out with
      | none => exact absurd (hbni.mpr hout) (by simp [hin])
      | some cout =>
        simpa only [stage2_go, valid_socket, hin, hout] using ih _ hrest

lemma stage2_go_mem (st : State) (r1 w1 : fdset) :
    ∀ (L : List Nat) (acc : fdset × fdset) (r2f w2f : fdset),
      stage2_go st r1 w1 acc L = Except.ok (r2f, w2f) →
      ∀ s, (r2f s = true ↔ acc.1 s = true ∨ ∃ i ∈ L, r2Contrib st w1 i s) := by
  intro L
  induction L with
  | nil =>
    intro acc r2f w2f h s
    simp only [stage2_go] at h
    cases h
    simp
  | cons i rest ih =>
    intro acc r2f w2f h s
    cases hin : (st.slots i).conn_in with
    | none =>
      cases hout : (st.slots i).conn_out with
      | none =>
        simp only [stage2_go, valid_socket, hin, hout] at h
        rw [ih _ _ _ h s]
        have hci : ¬ r2Contrib st w1 i s := by
          simp [r2Contrib, hin]
        simp only [List.mem_cons]
        constructor
        · rintro (ha | ⟨j, hj, hc⟩)
          · exact Or.inl ha
          · exact Or.inr ⟨j, Or.inr hj, hc⟩
        · rintro (ha | ⟨j, hj | hj, hc⟩)
          · exact Or.inl ha
          · exact absurd (hj ▸ hc) hci
          · exact Or.inr ⟨j, hj, hc⟩
      | some cout =>
        simp only [stage2_go, valid_socket, hin, hout] at h
        exact absurd h (by simp)
    | some cin =>
      cases hout : (st.slots i).conn_out with
      | none =>
        simp only [stage2_go, valid_socket, hin, hout] at h
        exact absurd h (by simp)
      | some cout =>
        simp only [stage2_go, valid_socket, hin, hout] at h
        rw [ih _ _ _ h s]
        have hci : r2Contrib st w1 i s ↔
            ((s = cout ∧ w1 cin = true ∧ (st.slots i).backlog_in.size = 0) ∨
             (s = cin ∧ w1 cout = true ∧ (st.slots i).backlog_out.size = 0)) := by
          simp [r2Contrib, hin, hout]
        simp only [List.mem_cons]
        by_cases hC1 : w1 cin = true ∧ (st.slots i).backlog_in.size = 0 <;>
          by_cases hC2 : w1 cout = true ∧ (st.slots i).backlog_out.size = 0 <;>
          simp [fdAdd_true_iff, hci, hC1, hC2] <;>
          tauto

/-- C5: the listening socket is in the stage 2 read interest set
exactly when the active count is below the capacity (so accept is
never reached while full, given distinct handles); and if
accept_incoming nevertheless runs when the table is full, the fresh
socket is closed, the counter restored, and every slot unchanged;
consequently a slot is only ever occupied when the count was strictly
below the capacity. -/
theorem admission_capacity_guard :
    (∀ st r1 w1 r2 w2,
      (∀ j, ((st.slots j).conn_in = none ↔ (st.slots j).conn_out = none)) →
      (∀ j s, j < st.max_connections.toNat →
        ((st.slots j).conn_in = some s ∨ (st.slots j).conn_out = some s) →
        s ≠ st.sockin) →
      stage2_interest st r1 w1 = Except.ok (r2, w2) →
      (r2 st.sockin = true ↔ st.active_connections < st.max_connections)) ∧
    (∀ (st : State) (a o : Option Socket),
      st.max_connections ≤ st.active_connections →
      ∃ st2, accept_incoming st a o = Except.ok st2 ∧
        st2.slots = st.slots ∧
        st2.active_connections = st.active_connections ∧
        st2.max_connections = st.max_connections ∧
        st2.sockin = st.sockin) ∧
    (∀ (st : State) (a o : Option Socket) (st2 : State),
      accept_incoming st a o = Except.ok st2 →
      st2.slots ≠ st.slots →
      st.active_connections < st.max_connections) := by
  have hb : ∀ (st : State) (a o : Option Socket),
      st.max_connections ≤ st.active_connections →
      ∃ st2, accept_incoming st a o = Except.ok st2 ∧
        st2.slots = st.slots ∧
        st2.active_connections = st.active_connections ∧
        st2.max_connections = st.max_connections ∧
        st2.sockin = st.sockin := by
    intro st a o hfull
    cases a with
    | none => exact ⟨st, rfl, rfl, rfl, rfl, rfl⟩
    | some incoming =>
      simp only [accept_incoming]
      have hc : ({ st with active_connections := st.active_connections + 1 }
          : State).max_connections <
          ({ st with active_connections := st.active_connections + 1 }
          : State).active_connections := by
        show st.max_connections < st.active_connections + 1
        omega
      rw [if_pos hc]
      refine ⟨_, rfl, rfl, ?_, rfl, rfl⟩
      show st.active_connections + 1 - 1 = st.active_connections
      omega
  refine ⟨?_, hb, ?_⟩
  · intro st r1 w1 r2 w2 hbn hsock hok
    simp only [stage2_interest] at hok
    rw [stage2_go_mem st r1 w1 _ _ r2 w2 hok st.sockin]
    constructor
    · rintro (hinit | ⟨j, hj, cin, cout, hcin, hcout, hc⟩)
      · by_cases hlt : st.active_connections < st.max_connections
        · exact hlt
        · rw [if_neg hlt] at hinit
          simp at hinit
      · rcases hc with ⟨hs, _⟩ | ⟨hs, _⟩
        · exact absurd hs.symm
            (hsock j cout (List.mem_range.mp hj) (Or.inr hcout))
        · exact absurd hs.symm
            (hsock j cin (List.mem_range.mp hj) (Or.inl hcin))
    · intro hlt
      left
      rw [if_pos hlt]
      simp [fdAdd_true_iff]
  · intro st a o st2 hok hne
    by_contra hge
    push_neg at hge
    obtain ⟨st3, hok2, hslots, _, _, _⟩ := hb st a o hge
    rw [hok] at hok2
    cases hok2
    exact hne hslots

/-- Witness state for the stage 2 and admission theorems: one
occupied slot with handles 2 and 3, listening socket 1, table full. -/
def stageWitState : State :=
  { max_connections := 1
    active_connections := 1
    sockin := 1
    slots := fun _ =>
      { conn_in := some 2
        conn_out := some 3
        backlog_in := { region := fun _ => 0, size := 0, pos := 0 }
        backlog_out := { region := fun _ => 0, size := 5, pos := 2 } } }

theorem admission_capacity_guard_witness :
    stageWitState.max_connections ≤ stageWitState.active_connections ∧
    ∃ st2, accept_incoming stageWitState (some 9) (some 10) = Except.ok st2 ∧
      st2.slots = stageWitState.slots ∧
      st2.active_connections = stageWitState.active_connections ∧
      st2.max_connections = stageWitState.max_connections ∧
      st2.sockin = stageWitState.sockin :=
  ⟨by decide, admission_capacity_guard.2.1 stageWitState (some 9) (some 10) (by decide)⟩

/-- C6: for an occupied slot (with pairwise distinct live handles),
the stage 2 interest build includes the outbound handle for read
exactly when stage 1 found the inbound handle writable and the IN
backlog is empty, and symmetrically includes the inbound handle for
read exactly when stage 1 found the outbound handle writable and the
OUT backlog is empty. -/
theorem stage2_read_interest_iff
    (st : State) (r1 w1 : fdset) (i : Nat) (cin cout : Socket)
    (hbn : ∀ j, ((st.slots j).conn_in = none ↔ (st.slots j).conn_out = none))
    (hi : i < st.max_connections.toNat)
    (hcin : (st.slots i).conn_in = some cin)
    (hcout : (st.slots i).conn_out = some cout)
    (hio : cin ≠ cout)
    (hdist : ∀ j s, j < st.max_connections.toNat → j ≠ i →
      ((st.slots j).conn_in = some s ∨ (st.slots j).conn_out = some s) →
      s ≠ cin ∧ s ≠ cout)
    (hsin : cin ≠ st.sockin) (hsout : cout ≠ st.sockin) :
    ∃ r2 w2, stage2_interest st r1 w1 = Except.ok (r2, w2) ∧
      (r2 cout = true ↔ (w1 cin = true ∧ (st.slots i).backlog_in.size = 0)) ∧
      (r2 cin = true ↔ (w1 cout = true ∧ (st.slots i).backlog_out.size = 0)) := by
  obtain ⟨r2, w2, hok⟩ :=
    stage2_go_total st r1 w1 (List.range st.max_connections.toNat) _
      (fun j _ => hbn j)
  have hinit : ∀ s, s ≠ st.sockin →
      ((if st.active_connections < st.max_connections
        then fdAdd fdEmpty st.sockin else fdEmpty, fdEmpty) :
        fdset × fdset).1 s ≠ true := by
    intro s hs
    split <;> simp [fdAdd_true_iff, hs]
  refine ⟨r2, w2, hok, ?_, ?_⟩
  · rw [stage2_go_mem st r1 w1 _ _ r2 w2 hok cout]
    constructor
    · rintro (h | ⟨j, hj, cin2, cout2, hcin2, hcout2, hc⟩)
      · exact absurd h (hinit cout hsout)
      · by_cases hji : j = i
        · subst hji
          rw [hcin] at hcin2
          rw [hcout] at hcout2
          cases hcin2
          cases hcout2
          rcases hc with ⟨_, h1, h2⟩ | ⟨he, _, _⟩
          · exact ⟨h1, h2⟩
          · exact absurd he.symm hio
        · rcases hc with ⟨he, _, _⟩ | ⟨he, _, _⟩
          · exact absurd (hdist j cout2 (List.mem_range.mp hj) hji
              (Or.inr hcout2)).2 (by simp [he])
          · exact absurd (hdist j cin2 (List.mem_range.mp hj) hji
              (Or.inl hcin2)).2 (by simp [he])
    · rintro ⟨h1, h2⟩
      right
      exact ⟨i, by simp [List.mem_range, hi], cin, cout, hcin, hcout,
        Or.inl ⟨rfl, h1, h2⟩⟩
  · rw [stage2_go_mem st r1 w1 _ _ r2 w2 hok cin]
    constructor
    · rintro (h | ⟨j, hj, cin2, cout2, hcin2, hcout2, hc⟩)
      · exact absurd h (hinit cin hsin)
      · by_cases hji : j = i
        · subst hji
          rw [hcin] at hcin2
          rw [hcout] at hcout2
          cases hcin2
          cases hcout2
          rcases hc with ⟨he, _, _⟩ | ⟨_, h1, h2⟩
          · exact absurd he hio
          · exact ⟨h1, h2⟩
        · rcases hc with ⟨he, _, _⟩ | ⟨he, _, _⟩
          · exact absurd (hdist j cout2 (List.mem_range.mp hj) hji
              (Or.inr hcout2)).1 (by simp [he])
          · exact absurd (hdist j cin2 (List.mem_range.mp hj) hji
              (Or.inl hcin2)).1 (by simp [he])
    · rintro ⟨h1, h2⟩
      right
      exact ⟨i, by simp [List.mem_range, hi], cin, cout, hcin, hcout,
        Or.inr ⟨rfl, h1, h2⟩⟩

theorem stage2_read_interest_iff_witness :
    ∃ r2 w2,
      stage2_interest stageWitState (fun _ => true) (fun _ => true) =
        Except.ok (r2, w2) ∧
      (r2 3 = true ↔ ((fun _ => true) 2 = true ∧
        (stageWitState.slots 0).backlog_in.size = 0)) ∧
      (r2 2 = true ↔ ((fun _ => true) 3 = true ∧
        (stageWitState.slots 0).backlog_out.size = 0)) :=
  stage2_read_interest_iff stageWitState (fun _ => true) (fun _ => true) 0 2 3
    (fun _ => by simp [stageWitState])
    (by decide) (by decide) (by decide) (by decide)
    (fun j s hjlt hj hsome => by
      have h1 : j < 1 := by simpa [stageWitState] using hjlt
      exact absurd (by omega : j = 0) hj)
    (by decide) (by decide)

/- Directional accessor reductions. -/

@[simp]
lemma conn_IN (sl : Slot) : sl.conn Direction.IN = sl.conn_in := rfl

@[simp]
lemma conn_OUT (sl : Slot) : sl.conn Direction.OUT = sl.conn_out := rfl

@[simp]
lemma backlog_IN (sl : Slot) : sl.backlog Direction.IN = sl.backlog_in := rfl

@[simp]
lemma backlog_OUT (sl : Slot) : sl.backlog Direction.OUT = sl.backlog_out := rfl

@[simp]
lemma setBacklog_IN (sl : Slot) (b : Backlog) :
    sl.setBacklog Direction.IN b = { sl with backlog_in := b } := rfl

@[simp]
lemma setBacklog_OUT (sl : Slot) (b : Backlog) :
    sl.setBacklog Direction.OUT b = { sl with backlog_out := b } := rfl

@[simp]
lemma flip_IN : Direction.IN.flip = Direction.OUT := rfl

@[simp]
lemma flip_OUT : Direction.OUT.flip = Direction.IN := rfl

/-- The full single-buffer invariant: non-negative bookkeeping within
capacity, and a fully drained buffer has its offset reset. -/
def BOK (b : Backlog) : Prop :=
  0 ≤ b.size ∧ 0 ≤ b.pos ∧ b.pos + b.size ≤ BACKLOG_SIZE ∧
  (b.size = 0 → b.pos = 0)

/-- The per-slot invariant: both handles set or both empty, an
unoccupied slot has fully reset backlog bookkeeping, and both backlog
buffers satisfy BOK. -/
def SlotOK (sl : Slot) : Prop :=
  (sl.conn_in = none ↔ sl.conn_out = none) ∧
  (sl.conn_in = none → sl.backlog_in.size = 0 ∧ sl.backlog_in.pos = 0 ∧
    sl.backlog_out.size = 0 ∧ sl.backlog_out.pos = 0) ∧
  BOK sl.backlog_in ∧ BOK sl.backlog_out

def StateOK (st : State) : Prop := ∀ i, SlotOK (st.slots i)

/-- The socket-layer contracts of the results fed to one slot: a
successful send transfers at most the requested length, and a
successful recv into the BACKLOG_SIZE scratch buffer returns at most
BACKLOG_SIZE bytes. -/
def SlotEnvOK (e : SlotEnv) : Prop :=
  (∀ l, 1 ≤ e.flushInSent l → e.flushInSent l ≤ l) ∧
  (∀ l, 1 ≤ e.flushOutSent l → e.flushOutSent l ≤ l) ∧
  (1 ≤ e.bounceOutRecvd → e.bounceOutRecvd ≤ BACKLOG_SIZE) ∧
  (1 ≤ e.bounceInRecvd → e.bounceInRecvd ≤ BACKLOG_SIZE)

def OracleOK (o : Oracle) : Prop := ∀ i, SlotEnvOK (o.slotEnv i)

lemma slotOK_backlogOK {sl : Slot} (h : SlotOK sl) (d : Direction) :
    BOK (sl.backlog d) := by
  cases d
  · exact h.2.2.1
  · exact h.2.2.2

lemma stateOK_kill {st : State} (h : StateOK st) (n : Nat) :
    StateOK (kill_connection st n) := by
  intro i
  by_cases hi : i = n
  · subst hi
    simp only [kill_slots_self]
    exact ⟨by simp, by simp, ⟨by simp, by simp, by simp [BACKLOG_SIZE], by simp⟩,
      ⟨by simp, by simp, by simp [BACKLOG_SIZE], by simp⟩⟩
  · rw [kill_slots_ne _ _ _ hi]
    exact h i

lemma stateOK_flush {st : State} (h : StateOK st) (n : Nat) (d : Direction)
    (s : Int)
    (hcontract : 1 ≤ s → s ≤ ((st.slots n).backlog d).size) :
    StateOK (flush_backlog st n d s) := by
  by_cases hs : s < 1
  · rw [flush_backlog, if_pos hs]
    exact stateOK_kill h n
  · have hs1 : 1 ≤ s := by omega
    have hle := hcontract hs1
    rw [flush_backlog, if_neg hs]
    intro i
    by_cases hi : i = n
    · subst hi
      simp only [slots_setSlot_self]
      have hsl := h i
      have hb := slotOK_backlogOK hsl d
      obtain ⟨hb1, hb2, hb3, hb4⟩ := hb
      have hocc : (st.slots i).conn_in ≠ none := by
        intro hnone
        have hempty := hsl.2.1 hnone
        have hz : ((st.slots i).backlog d).size = 0 := by
          cases d
          · exact hempty.1
          · exact hempty.2.2.1
        omega
      refine ⟨?_, ?_, ?_, ?_⟩
      · simpa using hsl.1
      · intro hnone
        exact absurd (by simpa using hnone) hocc
      · cases d <;> simp only [setBacklog_IN, setBacklog_OUT] <;>
          [skip; exact hsl.2.2.1]
        split <;> refine ⟨?_, ?_, ?_, ?_⟩ <;> (dsimp only; omega)
      · cases d <;> simp only [setBacklog_IN, setBacklog_OUT] <;>
          [exact hsl.2.2.2; skip]
        split <;> refine ⟨?_, ?_, ?_, ?_⟩ <;> (dsimp only; omega)
    · rw [slots_setSlot_ne _ _ _ _ hi]
      exact h i

lemma stateOK_add {st st2 : State} {n : Nat} {d : Direction}
    {buf : List Nat} {bufsize : Int}
    (h : StateOK st) (hocc : (st.slots n).conn_in ≠ none) (hbs : 0 ≤ bufsize)
    (hok : add_backlog st n d buf bufsize = Except.ok st2) : StateOK st2 := by
  rw [add_backlog] at hok
  split at hok
  · exact absurd hok (by simp)
  · rename_i hguard
    push_neg at hguard
    cases hok
    intro i
    by_cases hi : i = n
    · subst hi
      simp only [slots_setSlot_self]
      have hsl := h i
      have hb := slotOK_backlogOK hsl d
      obtain ⟨hb1, hb2, hb3, hb4⟩ := hb
      refine ⟨?_, ?_, ?_, ?_⟩
      · simpa using hsl.1
      · intro hnone
        exact absurd (by simpa using hnone) hocc
      · cases d <;> simp only [setBacklog_IN, setBacklog_OUT] <;>
          [skip; exact hsl.2.2.1]
        refine ⟨?_, ?_, ?_, ?_⟩ <;> (dsimp only; omega)
      · cases d <;> simp only [setBacklog_IN, setBacklog_OUT] <;>
          [exact hsl.2.2.2; skip]
        refine ⟨?_, ?_, ?_, ?_⟩ <;> (dsimp only; omega)
    · rw [slots_setSlot_ne _ _ _ _ hi]
      exact h i

lemma stateOK_bounce {st st2 : State} {n : Nat} {d : Direction}
    {recvd sent : Int} {buf : List Nat}
    (h : StateOK st) (hocc : (st.slots n).conn_in ≠ none)
    (hok : bounce st n d recvd buf sent = Except.ok st2) : StateOK st2 := by
  rw [bounce] at hok
  split at hok
  · cases hok; exact stateOK_kill h n
  · split at hok
    · cases hok; exact stateOK_kill h n
    · split at hok
      · rename_i h1 h2 h3
        exact stateOK_add h hocc (by omega) hok
      · cases hok; exact h

/- Socket handle preservation: a handle still present after an
operation was present before it. -/

lemma conn_some_flush {st : State} {n : Nat} {d e : Direction} {s : Int}
    {c : Socket}
    (hc : ((flush_backlog st n d s).slots n).conn e = some c) :
    (st.slots n).conn e = some c := by
  rw [flush_backlog] at hc
  split at hc
  · rw [kill_slots_self] at hc
    cases e <;> simp at hc
  · rw [slots_setSlot_self] at hc
    simpa using hc

lemma conn_some_flush_ne {st : State} {n m : Nat} {d e : Direction} {s : Int}
    (hm : m ≠ n) :
    ((flush_backlog st n d s).slots m).conn e = (st.slots m).conn e := by
  rw [flush_backlog]
  split
  · rw [kill_slots_ne _ _ _ hm]
  · rw [slots_setSlot_ne _ _ _ _ hm]

lemma backlog_flush_other {st : State} {n : Nat} {d e : Direction} {s : Int}
    (hde : e ≠ d) (hnk : ¬ s < 1) :
    ((flush_backlog st n d s).slots n).backlog e = (st.slots n).backlog e := by
  rw [flush_backlog, if_neg hnk, slots_setSlot_self]
  exact backlog_setBacklog_ne _ _ _ _ hde

lemma conn_some_bounce {st st2 : State} {n : Nat} {d e : Direction}
    {recvd sent : Int} {buf : List Nat} {c : Socket}
    (hok : bounce st n d recvd buf sent = Except.ok st2)
    (hc : (st2.slots n).conn e = some c) :
    (st.slots n).conn e = some c := by
  rw [bounce] at hok
  split at hok
  · cases hok
    rw [kill_slots_self] at hc
    cases e <;> simp at hc
  · split at hok
    · cases hok
      rw [kill_slots_self] at hc
      cases e <;> simp at hc
    · split at hok
      · rw [add_backlog] at hok
        split at hok
        · exact absurd hok (by simp)
        · cases hok
          rw [slots_setSlot_self] at hc
          simpa using hc
      · cases hok
        exact hc

lemma backlog_bounce_other {st st2 : State} {n : Nat} {d e : Direction}
    {recvd sent : Int} {buf : List Nat}
    (hde : e ≠ d)
    (hok : bounce st n d recvd buf sent = Except.ok st2)
    (hc : (st2.slots n).conn e ≠ none) :
    (st2.slots n).backlog e = (st.slots n).backlog e := by
  rw [bounce] at hok
  split at hok
  · cases hok
    rw [kill_slots_self] at hc
    cases e <;> simp at hc
  · split at hok
    · cases hok
      rw [kill_slots_self] at hc
      cases e <;> simp at hc
    · split at hok
      · rw [add_backlog] at hok
        split at hok
        · exact absurd hok (by simp)
        · cases hok
          rw [slots_setSlot_self]
          exact backlog_setBacklog_ne _ _ _ _ hde
      · cases hok
        rfl

lemma valid_socket_total {st : State} {i : Nat}
    (hbn : (st.slots i).conn_in = none ↔ (st.slots i).conn_out = none) :
    ∃ v, valid_socket st i = Except.ok v := by
  cases hin : (st.slots i).conn_in with
  | none =>
    have hout : (st.slots i).conn_out = none := hbn.mp hin
    exact ⟨false, by simp [valid_socket, hin, hout]⟩
  | some cin =>
    cases hout : (st.slots i).conn_out with
    | none => exact absurd (hbn.mpr hout) (by simp [hin])
    | some cout => exact ⟨true, by simp [valid_socket, hin, hout]⟩

/-- Case analysis of try_flush: either nothing happened and the guard
fails for the handle of the direction, or the guard held, the handle
was cleared from the write set and flush_backlog ran. -/
lemma try_flush_cases (st : State) (w2 : fdset) (i : Nat) (d : Direction)
    (sf : Int → Int) :
    (try_flush st w2 i d sf = (st, w2, []) ∧
      (∀ c, (st.slots i).conn d = some c →
        ¬(((st.slots i).backlog d).size ≠ 0 ∧ w2 c = true))) ∨
    (∃ c, (st.slots i).conn d = some c ∧
      ((st.slots i).backlog d).size ≠ 0 ∧ w2 c = true ∧
      try_flush st w2 i d sf =
        (flush_backlog st i d (sf ((st.slots i).backlog d).size),
         fdDel w2 c, [Event.flush d ((st.slots i).backlog d).size])) := by
  unfold try_flush
  cases hc : (st.slots i).conn d with
  | none =>
    left
    exact ⟨rfl, fun c hcc => absurd hcc (by simp)⟩
  | some c =>
    by_cases hcond : ((st.slots i).backlog d).size ≠ 0 ∧ w2 c = true
    · right
      refine ⟨c, rfl, hcond.1, hcond.2, ?_⟩
      show (if ((st.slots i).backlog d).size ≠ 0 ∧ w2 c = true then
        (flush_backlog st i d (sf ((st.slots i).backlog d).size),
         fdDel w2 c, [Event.flush d ((st.slots i).backlog d).size])
        else (st, w2, [])) = _
      rw [if_pos hcond]
    · left
      refine ⟨?_, ?_⟩
      · show (if ((st.slots i).backlog d).size ≠ 0 ∧ w2 c = true then
          (flush_backlog st i d (sf ((st.slots i).backlog d).size),
           fdDel w2 c, [Event.flush d ((st.slots i).backlog d).size])
          else (st, w2, [])) = _
        rw [if_neg hcond]
      · intro c2 hc2
        cases hc2
        exact hcond

lemma try_flush_stateOK {st : State} {w2 : fdset} {i : Nat} {d : Direction}
    {sf : Int → Int} (hOK : StateOK st) (hsf : ∀ l, 1 ≤ sf l → sf l ≤ l) :
    StateOK (try_flush st w2 i d sf).1 := by
  rcases try_flush_cases st w2 i d sf with ⟨heq, _⟩ | ⟨c, hc, hnz, hw, heq⟩
  · rw [heq]; exact hOK
  · rw [heq]
    exact stateOK_flush hOK i d _ (fun h1 => hsf _ h1)

lemma try_flush_w2_subset {st : State} {w2 : fdset} {i : Nat} {d : Direction}
    {sf : Int → Int} {c : Socket}
    (h : (try_flush st w2 i d sf).2.1 c = true) : w2 c = true := by
  rcases try_flush_cases st w2 i d sf with ⟨heq, _⟩ | ⟨c2, hc2, hnz, hw, heq⟩
  · rw [heq] at h; exact h
  · rw [heq] at h
    exact ((fdDel_true_iff _ _ _).mp h).2

lemma conn_some_try_flush {st : State} {w2 : fdset} {i : Nat} {d e : Direction}
    {sf : Int → Int} {c : Socket}
    (h : ((try_flush st w2 i d sf).1.slots i).conn e = some c) :
    (st.slots i).conn e = some c := by
  rcases try_flush_cases st w2 i d sf with ⟨heq, _⟩ | ⟨c2, hc2, hnz, hw, heq⟩
  · rw [heq] at h; exact h
  · rw [heq] at h
    exact conn_some_flush h

/-- The within-iteration exclusion property: a handle of direction d
still present in the write set implies the backlog of that direction
is empty. -/
def flushedProp (st : State) (w2 : fdset) (i : Nat) (d : Direction) : Prop :=
  ∀ c, (st.slots i).conn d = some c → w2 c = true →
    ((st.slots i).backlog d).size = 0

lemma try_flush_establishes (st : State) (w2 : fdset) (i : Nat) (d : Direction)
    (sf : Int → Int) :
    flushedProp (try_flush st w2 i d sf).1 (try_flush st w2 i d sf).2.1 i d := by
  rcases try_flush_cases st w2 i d sf with ⟨heq, hng⟩ | ⟨c, hc, hnz, hw, heq⟩
  · rw [heq]
    intro c hcc hw2
    have hng2 := hng c hcc
    by_contra hne
    exact hng2 ⟨hne, hw2⟩
  · rw [heq]
    intro c2 hc2 hw2
    dsimp only at hc2 hw2 ⊢
    have hc2b := conn_some_flush hc2
    rw [hc] at hc2b
    cases hc2b
    rw [fdDel_true_iff] at hw2
    exact absurd rfl hw2.1

lemma try_flush_preserves (st : State) (w2 : fdset) (i : Nat)
    (d d2 : Direction) (sf : Int → Int) (hdd : d ≠ d2)
    (h : flushedProp st w2 i d) :
    flushedProp (try_flush st w2 i d2 sf).1 (try_flush st w2 i d2 sf).2.1 i d := by
  rcases try_flush_cases st w2 i d2 sf with ⟨heq, _⟩ | ⟨c, hc, hnz, hw, heq⟩
  · rw [heq]; exact h
  · rw [heq]
    intro c2 hc2 hw2
    dsimp only at hc2 hw2 ⊢
    have hc2b := conn_some_flush hc2
    rw [fdDel_true_iff] at hw2
    by_cases hk : sf ((st.slots i).backlog d2).size < 1
    · rw [flush_backlog, if_pos hk, kill_slots_self] at hc2
      cases d <;> simp at hc2
    · rw [backlog_flush_other hdd hk]
      exact h c2 hc2b hw2.2

lemma try_bounce_preserves {st st2 : State} {r2 w2c w2 : fdset} {i : Nat}
    {d d2 : Direction} {recvd sent : Int} {buf : List Nat} {evs : List Event}
    (hdd : d ≠ d2)
    (hok : try_bounce st r2 w2c i d2 recvd buf sent = Except.ok (st2, evs))
    (h : flushedProp st w2 i d) :
    flushedProp st2 w2 i d := by
  cases hv : valid_socket st i with
  | error f =>
    rw [try_bounce.eq_def, hv] at hok
    exact absurd hok (by simp)
  | ok v =>
    rw [try_bounce.eq_def, hv] at hok
    dsimp only at hok
    split at hok
    · cases hb : bounce st i d2 recvd buf sent with
      | error f =>
        rw [hb] at hok
        exact absurd hok (by simp)
      | ok st3 =>
        rw [hb] at hok
        dsimp only at hok
        cases hok
        intro c hc hw
        have hconn := conn_some_bounce hb hc
        have hbl := backlog_bounce_other hdd hb (by rw [hc]; simp)
        rw [hbl]
        exact h c hconn hw
    · cases hok
      exact h

/-- A bounce attempt whose destination handle has been cleared from
the current write set does nothing. -/
lemma try_bounce_noop {st : State} {r2 w2c : fdset} {i : Nat} {d : Direction}
    {recvd sent : Int} {buf : List Nat} {v : Bool}
    (hv : valid_socket st i = Except.ok v)
    (hcl : ∀ c, (st.slots i).conn d = some c → w2c c = false) :
    try_bounce st r2 w2c i d recvd buf sent = Except.ok (st, []) := by
  simp only [try_bounce, hv]
  rw [if_neg]
  rintro ⟨hveq, hr, hw⟩
  cases hcd : (st.slots i).conn d with
  | none => rw [hcd] at hw; simp at hw
  | some c =>
    rw [hcd] at hw
    rw [isSet_some] at hw
    rw [hcl c hcd] at hw
    cases hw

/-- A bounce attempt from a state whose backlog in that direction is
known empty (the flushedProp discipline) succeeds, preserves the state
invariant and records only empty-backlog bounce events. -/
lemma try_bounce_spec (st : State) (r2 w2c : fdset) (i : Nat) (d : Direction)
    (recvd : Int) (buf : List Nat) (sent : Int)
    (hOK : StateOK st) (hfl : flushedProp st w2c i d)
    (hrc : 1 ≤ recvd → recvd ≤ BACKLOG_SIZE) :
    ∃ st2 evs, try_bounce st r2 w2c i d recvd buf sent = Except.ok (st2, evs) ∧
      StateOK st2 ∧ (∀ e ∈ evs, e = Event.bounce d 0 0) ∧
      (evs = [] ∨ ∃ c, (st.slots i).conn d = some c ∧ w2c c = true) := by
  have hbn := (hOK i).1
  cases hin : (st.slots i).conn_in with
  | none =>
    have hout : (st.slots i).conn_out = none := hbn.mp hin
    have hv : valid_socket st i = Except.ok false := by
      simp [valid_socket, hin, hout]
    simp only [try_bounce, hv]
    rw [if_neg (by rintro ⟨hveq, _, _⟩; cases hveq)]
    exact ⟨st, [], rfl, hOK, by simp, Or.inl rfl⟩
  | some cin =>
    cases hout : (st.slots i).conn_out with
    | none => exact absurd (hbn.mpr hout) (by simp [hin])
    | some cout =>
      have hv : valid_socket st i = Except.ok true := by
        simp [valid_socket, hin, hout]
      simp only [try_bounce, hv]
      by_cases hg : isSet r2 ((st.slots i).conn d.flip) = true ∧
          isSet w2c ((st.slots i).conn d) = true
      · have hsz : ((st.slots i).backlog d).size = 0 := by
          cases hcd : (st.slots i).conn d with
          | none => rw [hcd] at hg; simp at hg
          | some c =>
            rw [hcd] at hg
            exact hfl c hcd (by simpa using hg.2)
        have hpos : ((st.slots i).backlog d).pos = 0 :=
          (slotOK_backlogOK (hOK i) d).2.2.2 hsz
        rw [if_pos ⟨trivial, hg.1, hg.2⟩]
        have hb : ∃ st3, bounce st i d recvd buf sent = Except.ok st3 ∧
            StateOK st3 := by
          by_cases hr : recvd < 1
          · exact ⟨_, by rw [bounce, if_pos hr], stateOK_kill hOK i⟩
          · by_cases hsnt : sent < 1
            · exact ⟨_, by rw [bounce, if_neg hr, if_pos hsnt],
                stateOK_kill hOK i⟩
            · by_cases hsr : sent < recvd
              · have hguard : ¬ BACKLOG_SIZE < ((st.slots i).backlog d).pos +
                    ((st.slots i).backlog d).size + (recvd - sent) := by
                  have h2 := hrc (by omega)
                  omega
                cases hres : add_backlog st i d (buf.drop sent.toNat)
                    (recvd - sent) with
                | error f =>
                  rw [add_backlog, if_neg hguard] at hres
                  cases hres
                | ok st3 =>
                  refine ⟨st3, ?_, stateOK_add hOK (by rw [hin]; simp)
                    (by omega) hres⟩
                  rw [bounce, if_neg hr, if_neg hsnt, if_pos hsr]
                  exact hres
              · exact ⟨st, by rw [bounce, if_neg hr, if_neg hsnt, if_neg hsr],
                  hOK⟩
        obtain ⟨st3, hb3, hOK3⟩ := hb
        simp only [hb3]
        refine ⟨st3, _, rfl, hOK3, ?_, ?_⟩
        · intro e he
          simp only [List.mem_singleton] at he
          rw [hsz, hpos] at he
          exact he
        · right
          cases hcd : (st.slots i).conn d with
          | none => rw [hcd] at hg; simp at hg
          | some c => exact ⟨c, rfl, by rw [hcd] at hg; simpa using hg.2⟩
      · rw [if_neg (by rintro ⟨hveq, h1, h2⟩; exact hg ⟨h1, h2⟩)]
        exact ⟨st, [], rfl, hOK, by simp, Or.inl rfl⟩

lemma conn_some_try_bounce {st st2 : State} {r2 w2c : fdset} {i : Nat}
    {d2 e : Direction} {recvd sent : Int} {buf : List Nat} {evs : List Event}
    {c : Socket}
    (hok : try_bounce st r2 w2c i d2 recvd buf sent = Except.ok (st2, evs))
    (hc : (st2.slots i).conn e = some c) :
    (st.slots i).conn e = some c := by
  cases hv : valid_socket st i with
  | error f =>
    rw [try_bounce.eq_def, hv] at hok
    exact absurd hok (by simp)
  | ok v =>
    rw [try_bounce.eq_def, hv] at hok
    dsimp only at hok
    split at hok
    · cases hb : bounce st i d2 recvd buf sent with
      | error f =>
        rw [hb] at hok
        exact absurd hok (by simp)
      | ok st3 =>
        rw [hb] at hok
        dsimp only at hok
        cases hok
        exact conn_some_bounce hb hc
    · cases hok
      exact hc

/-- Pure bookkeeping about the event list of one slot dispatch: flush
lists hold at most one flush of their own direction, bounce lists hold
only empty-backlog bounces of their own direction, and a flush of a
direction empties the bounce list of that direction. -/
lemma events_good (e1 e2 e3 e4 : List Event)
    (h1 : e1 = [] ∨ ∃ sz, e1 = [Event.flush Direction.IN sz])
    (h2 : e2 = [] ∨ ∃ sz, e2 = [Event.flush Direction.OUT sz])
    (h3 : ∀ e ∈ e3, e = Event.bounce Direction.OUT 0 0)
    (h4 : ∀ e ∈ e4, e = Event.bounce Direction.IN 0 0)
    (hx2 : ∀ sz, Event.flush Direction.OUT sz ∈ e2 → e3 = [])
    (hx1 : ∀ sz, Event.flush Direction.IN sz ∈ e1 → e4 = []) :
    ∀ d sz ps, Event.bounce d sz ps ∈ (e1 ++ e2 ++ e3 ++ e4) →
      sz = 0 ∧ ps = 0 ∧
      ∀ sz2, Event.flush d sz2 ∉ (e1 ++ e2 ++ e3 ++ e4) := by
  intro d sz ps hmem
  have hne1 : Event.bounce d sz ps ∉ e1 := by
    rcases h1 with h | ⟨sz2, h⟩ <;> simp [h]
  have hne2 : Event.bounce d sz ps ∉ e2 := by
    rcases h2 with h | ⟨sz2, h⟩ <;> simp [h]
  simp only [List.mem_append] at hmem
  rcases hmem with ((hm | hm) | hm) | hm
  · exact absurd hm hne1
  · exact absurd hm hne2
  · have heq := h3 _ hm
    injection heq with hd hsz hps
    subst hd
    subst hsz
    subst hps
    refine ⟨rfl, rfl, ?_⟩
    intro sz2
    simp only [List.mem_append]
    rintro (((hf | hf) | hf) | hf)
    · rcases h1 with h | ⟨sz3, h⟩ <;> subst h <;> simp at hf
    · exact absurd hm (by rw [hx2 sz2 hf]; simp)
    · have := h3 _ hf
      simp at this
    · have := h4 _ hf
      simp at this
  · have heq := h4 _ hm
    injection heq with hd hsz hps
    subst hd
    subst hsz
    subst hps
    refine ⟨rfl, rfl, ?_⟩
    intro sz2
    simp only [List.mem_append]
    rintro (((hf | hf) | hf) | hf)
    · exact absurd hm (by rw [hx1 sz2 hf]; simp)
    · rcases h2 with h | ⟨sz3, h⟩ <;> subst h <;> simp at hf
    · have := h3 _ hf
      simp at this
    · have := h4 _ hf
      simp at this

/-- The dispatch of one slot in the loop never hits the fatal backlog
overflow (or any other fatal error), preserves the state invariant,
and its event trace shows that every fresh relay in a direction ran
with an empty backlog in that direction and excludes a backlog flush
of the same direction in the same iteration. -/
lemma dispatch_slot_spec (st : State) (r2 w2 : fdset) (i : Nat) (env : SlotEnv)
    (hOK : StateOK st) (henv : SlotEnvOK env) :
    ∃ st4 w2b evs, dispatch_slot st r2 w2 i env = Except.ok (st4, w2b, evs) ∧
      StateOK st4 ∧
      (∀ d sz ps, Event.bounce d sz ps ∈ evs → sz = 0 ∧ ps = 0 ∧
        (∀ sz2, Event.flush d sz2 ∉ evs)) := by
  obtain ⟨hf1, hf2, hrcO, hrcI⟩ := henv
  have hOK1 : StateOK (try_flush st w2 i Direction.IN env.flushInSent).1 :=
    try_flush_stateOK hOK hf1
  have hOK2 : StateOK (try_flush (try_flush st w2 i Direction.IN env.flushInSent).1
      (try_flush st w2 i Direction.IN env.flushInSent).2.1 i Direction.OUT
      env.flushOutSent).1 :=
    try_flush_stateOK hOK1 hf2
  have hflO := try_flush_establishes
    (try_flush st w2 i Direction.IN env.flushInSent).1
    (try_flush st w2 i Direction.IN env.flushInSent).2.1 i Direction.OUT
    env.flushOutSent
  have hflI1 := try_flush_establishes st w2 i Direction.IN env.flushInSent
  have hflI2 := try_flush_preserves
    (try_flush st w2 i Direction.IN env.flushInSent).1
    (try_flush st w2 i Direction.IN env.flushInSent).2.1 i
    Direction.IN Direction.OUT env.flushOutSent (by decide) hflI1
  obtain ⟨st3, e3, hb3, hOK3, hev3, hg3⟩ :=
    try_bounce_spec _ r2 _ i Direction.OUT
      env.bounceOutRecvd env.bounceOutBuf env.bounceOutSent hOK2 hflO hrcO
  have hflI3 := try_bounce_preserves (by decide) hb3 hflI2
  obtain ⟨st4, e4, hb4, hOK4, hev4, hg4⟩ :=
    try_bounce_spec st3 r2 _ i Direction.IN
      env.bounceInRecvd env.bounceInBuf env.bounceInSent hOK3 hflI3 hrcI
  have hds : dispatch_slot st r2 w2 i env = Except.ok (st4,
      (try_flush (try_flush st w2 i Direction.IN env.flushInSent).1
        (try_flush st w2 i Direction.IN env.flushInSent).2.1 i Direction.OUT
        env.flushOutSent).2.1,
      (try_flush st w2 i Direction.IN env.flushInSent).2.2 ++
      (try_flush (try_flush st w2 i Direction.IN env.flushInSent).1
        (try_flush st w2 i Direction.IN env.flushInSent).2.1 i Direction.OUT
        env.flushOutSent).2.2 ++ e3 ++ e4) := by
    simp only [dispatch_slot]
    rw [hb3]
    dsimp only
    rw [hb4]
  have hE1 : (try_flush st w2 i Direction.IN env.flushInSent).2.2 = [] ∨
      ∃ sz, (try_flush st w2 i Direction.IN env.flushInSent).2.2 =
        [Event.flush Direction.IN sz] := by
    rcases try_flush_cases st w2 i Direction.IN env.flushInSent with
      ⟨heq, _⟩ | ⟨c, _, _, _, heq⟩ <;> rw [heq]
    · exact Or.inl rfl
    · exact Or.inr ⟨_, rfl⟩
  have hE2 : (try_flush (try_flush st w2 i Direction.IN env.flushInSent).1
      (try_flush st w2 i Direction.IN env.flushInSent).2.1 i Direction.OUT
      env.flushOutSent).2.2 = [] ∨
      ∃ sz, (try_flush (try_flush st w2 i Direction.IN env.flushInSent).1
        (try_flush st w2 i Direction.IN env.flushInSent).2.1 i Direction.OUT
        env.flushOutSent).2.2 = [Event.flush Direction.OUT sz] := by
    rcases try_flush_cases (try_flush st w2 i Direction.IN env.flushInSent).1
      (try_flush st w2 i Direction.IN env.flushInSent).2.1 i Direction.OUT
      env.flushOutSent with ⟨heq, _⟩ | ⟨c, _, _, _, heq⟩ <;> rw [heq]
    · exact Or.inl rfl
    · exact Or.inr ⟨_, rfl⟩
  have hx2 : ∀ sz, Event.flush Direction.OUT sz ∈
      (try_flush (try_flush st w2 i Direction.IN env.flushInSent).1
        (try_flush st w2 i Direction.IN env.flushInSent).2.1 i Direction.OUT
        env.flushOutSent).2.2 → e3 = [] := by
    intro sz hmem
    rcases try_flush_cases (try_flush st w2 i Direction.IN env.flushInSent).1
      (try_flush st w2 i Direction.IN env.flushInSent).2.1 i Direction.OUT
      env.flushOutSent with ⟨heq, _⟩ | ⟨c2, hc2, hnz2, hw2c, heq⟩
    · rw [heq] at hmem
      simp at hmem
    · rcases hg3 with he3 | ⟨c, hcd, hwc⟩
      · exact he3
      · exfalso
        rw [heq] at hcd hwc
        dsimp only at hcd hwc
        have hcc := conn_some_flush hcd
        rw [hc2] at hcc
        cases hcc
        rw [fdDel_true_iff] at hwc
        exact hwc.1 rfl
  have hx1 : ∀ sz, Event.flush Direction.IN sz ∈
      (try_flush st w2 i Direction.IN env.flushInSent).2.2 → e4 = [] := by
    intro sz hmem
    rcases try_flush_cases st w2 i Direction.IN env.flushInSent with
      ⟨heq, _⟩ | ⟨c1, hc1, hnz1, hw1, heq⟩
    · rw [heq] at hmem
      simp at hmem
    · rcases hg4 with he4 | ⟨c, hcd, hwc⟩
      · exact he4
      · exfalso
        have h1 := conn_some_try_bounce hb3 hcd
        have h2 := conn_some_try_flush h1
        have h3 := conn_some_try_flush h2
        rw [hc1] at h3
        cases h3
        have h4 := try_flush_w2_subset hwc
        rw [heq] at h4
        dsimp only at h4
        rw [fdDel_true_iff] at h4
        exact h4.1 rfl
  exact ⟨st4, _, _, hds, hOK4,
    events_good _ _ e3 e4 hE1 hE2 hev3 hev4 hx2 hx1⟩

lemma stage1_go_total (st : State) :
    ∀ (L : List Nat) (acc : fdset × fdset × Bool),
      (∀ i ∈ L, ((st.slots i).conn_in = none ↔ (st.slots i).conn_out = none)) →
      ∃ res, stage1_go st acc L = Except.ok res := by
  intro L
  induction L with
  | nil => intro acc _; exact ⟨acc, rfl⟩
  | cons i rest ih =>
    intro acc hbn
    have hbni := hbn i (by simp)
    have hrest : ∀ j ∈ rest,
        ((st.slots j).conn_in = none ↔ (st.slots j).conn_out = none) :=
      fun j hj => hbn j (by simp [hj])
    cases hin : (st.slots i).conn_in with
    | none =>
      have hout : (st.slots i).conn_out = none := hbni.mp hin
      simpa only [stage1_go, valid_socket, hin, hout] using ih acc hrest
    | some cin =>
      cases hout : (st.slots i).conn_out with
      | none => exact absurd (hbni.mpr hout) (by simp [hin])
      | some cout =>
        simpa only [stage1_go, valid_socket, hin, hout] using ih _ hrest

lemma stateOK_accept {st st2 : State} {a o : Option Socket}
    (h : StateOK st) (hok : accept_incoming st a o = Except.ok st2) :
    StateOK st2 := by
  cases a with
  | none =>
    simp only [accept_incoming] at hok
    cases hok
    exact h
  | some inc =>
    simp only [accept_incoming] at hok
    split at hok
    · cases hok
      exact fun i => h i
    · split at hok
      · exact absurd hok (by simp)
      · rename_i curr hcurr
        split at hok
        · exact absurd hok (by simp)
        · rename_i outg
          cases hok
          intro i
          by_cases hi : i = curr
          · subst hi
            simp only [slots_setSlot_self]
            have hold := h i
            exact ⟨by simp, by simp, hold.2.2.1, hold.2.2.2⟩
          · rw [slots_setSlot_ne _ _ _ _ hi]
            exact h i

lemma accept_backlogs_unchanged {st st2 : State} {a o : Option Socket}
    (hok : accept_incoming st a o = Except.ok st2) :
    ∀ i, (st2.slots i).backlog_in = (st.slots i).backlog_in ∧
      (st2.slots i).backlog_out = (st.slots i).backlog_out := by
  cases a with
  | none =>
    simp only [accept_incoming] at hok
    cases hok
    exact fun i => ⟨rfl, rfl⟩
  | some inc =>
    simp only [accept_incoming] at hok
    split at hok
    · cases hok
      exact fun i => ⟨rfl, rfl⟩
    · split at hok
      · exact absurd hok (by simp)
      · rename_i curr hcurr
        split at hok
        · exact absurd hok (by simp)
        · rename_i outg
          cases hok
          intro i
          by_cases hi : i = curr
          · subst hi
            simp
          · rw [slots_setSlot_ne _ _ _ _ hi]
            exact ⟨rfl, rfl⟩

lemma accept_error_cases {st : State} {a o : Option Socket} {f : Fatal}
    (hok : accept_incoming st a o = Except.error f) :
    f = Fatal.enqueueFail ∨ f = Fatal.outSocketFail := by
  cases a with
  | none => simp [accept_incoming] at hok
  | some inc =>
    simp only [accept_incoming] at hok
    split at hok
    · simp at hok
    · split at hok
      · cases hok
        exact Or.inl rfl
      · split at hok
        · cases hok
          exact Or.inr rfl
        · simp at hok

lemma dispatch_go_spec (r2 : fdset) (envs : Nat → SlotEnv)
    (henvs : ∀ i, SlotEnvOK (envs i)) :
    ∀ (L : List Nat), L.Nodup → ∀ (st : State) (w2 : fdset), StateOK st →
      ∃ st2 w2c evs, dispatch_go r2 envs st w2 L = Except.ok (st2, w2c, evs) ∧
        StateOK st2 ∧
        (∀ p ∈ evs, p.1 ∈ L) ∧
        (∀ j d sz ps, (j, Event.bounce d sz ps) ∈ evs → sz = 0 ∧ ps = 0 ∧
          ∀ sz2, (j, Event.flush d sz2) ∉ evs) := by
  intro L
  induction L with
  | nil =>
    intro _ st w2 hOK
    exact ⟨st, w2, [], rfl, hOK, by simp, by simp⟩
  | cons i rest ih =>
    intro hnd st w2 hOK
    have hni : i ∉ rest := (List.nodup_cons.mp hnd).1
    have hndr : rest.Nodup := (List.nodup_cons.mp hnd).2
    obtain ⟨st1, w2b, evs1, hds, hOK1, hgood1⟩ :=
      dispatch_slot_spec st r2 w2 i (envs i) hOK (henvs i)
    obtain ⟨st2, w2c, evs2, hgo, hOK2, htags, hgood2⟩ :=
      ih hndr st1 w2b hOK1
    refine ⟨st2, w2c, evs1.map (fun e => (i, e)) ++ evs2, ?_, hOK2, ?_, ?_⟩
    · simp only [dispatch_go]
      rw [hds]
      dsimp only
      rw [hgo]
    · intro p hp
      rcases List.mem_append.mp hp with hm | hm
      · obtain ⟨e, _, heq⟩ := List.mem_map.mp hm
        rw [← heq]
        simp
      · simp [htags p hm]
    · intro j d sz ps hmem
      rcases List.mem_append.mp hmem with hm | hm
      · obtain ⟨e, hein, heq⟩ := List.mem_map.mp hm
        have hij : i = j := congrArg Prod.fst heq
        have hee : e = Event.bounce d sz ps := congrArg Prod.snd heq
        subst hij
        subst hee
        obtain ⟨hsz, hps, hnof⟩ := hgood1 d sz ps hein
        refine ⟨hsz, hps, ?_⟩
        intro sz2 hf
        rcases List.mem_append.mp hf with hf1 | hf2
        · obtain ⟨e2, he2in, he2eq⟩ := List.mem_map.mp hf1
          have hee2 : e2 = Event.flush d sz2 := congrArg Prod.snd he2eq
          subst hee2
          exact hnof sz2 he2in
        · exact hni (htags _ hf2)
      · obtain ⟨hsz, hps, hnof⟩ := hgood2 j d sz ps hm
        have hjr : j ∈ rest := htags _ hm
        refine ⟨hsz, hps, ?_⟩
        intro sz2 hf
        rcases List.mem_append.mp hf with hf1 | hf2
        · obtain ⟨e2, he2in, he2eq⟩ := List.mem_map.mp hf1
          have hij : i = j := congrArg Prod.fst he2eq
          exact hni (hij ▸ hjr)
        · exact hnof sz2 hf2

lemma dispatch_top_spec (st1 : State) (R2 W2 : fdset) (envs : Nat → SlotEnv)
    (h1 : StateOK st1) (henvs : ∀ i, SlotEnvOK (envs i)) :
    ∃ st2 evs, dispatch_top st1 R2 W2 envs = Except.ok (st2, evs) ∧
      StateOK st2 ∧
      (∀ j d sz ps, (j, Event.bounce d sz ps) ∈ evs → sz = 0 ∧ ps = 0 ∧
        ∀ sz2, (j, Event.flush d sz2) ∉ evs) := by
  obtain ⟨st2, w2c, evs, hgo, hOK2, _, hgood⟩ :=
    dispatch_go_spec R2 envs henvs (List.range st1.max_connections.toNat)
      (List.nodup_range _) st1 W2 h1
  exact ⟨st2, evs, by simp only [dispatch_top, hgo], hOK2, hgood⟩

/-- Master lemma about one poll_conn iteration from a state satisfying
the slot-table invariant, with socket results satisfying the POSIX
contracts: the backlog-overflow fatal branch is unreachable, the
invariant is preserved, and the event trace shows every fresh relay of
a direction ran on an empty backlog and excludes a flush of the same
slot and direction within the iteration. -/
lemma poll_conn_spec (st : State) (o : Oracle) (hOK : StateOK st)
    (hor : OracleOK o) :
    poll_conn st o ≠ Except.error Fatal.backlogExceeded ∧
    ∀ st2 evs, poll_conn st o = Except.ok (st2, evs) →
      StateOK st2 ∧
      ∀ i d sz ps, (i, Event.bounce d sz ps) ∈ evs → sz = 0 ∧ ps = 0 ∧
        ∀ sz2, (i, Event.flush d sz2) ∉ evs := by
  have hbn : ∀ j, ((st.slots j).conn_in = none ↔ (st.slots j).conn_out = none) :=
    fun j => (hOK j).1
  have hs2tot : ∀ (r1 w1 : fdset), ∃ r2i w2i,
      stage2_interest st r1 w1 = Except.ok (r2i, w2i) := by
    intro r1 w1
    obtain ⟨a, b, h⟩ := stage2_go_total st r1 w1
      (List.range st.max_connections.toNat) _ (fun i _ => hbn i)
    exact ⟨a, b, by rw [stage2_interest]; exact h⟩
  obtain ⟨res1, hs1⟩ := stage1_go_total st (List.range st.max_connections.toNat)
    (fdEmpty, fdEmpty, false) (fun i _ => hbn i)
  have hs1i : stage1_interest st = Except.ok res1 := by
    rw [stage1_interest]; exact hs1
  obtain ⟨r1i, w1i, hasAny⟩ := res1
  simp only [poll_conn, hs1i]
  by_cases hA : hasAny = true ∧ o.sel1err = true
  · rw [if_pos hA]
    exact ⟨by simp, fun st2 evs h => absurd h (by simp)⟩
  · rw [if_neg hA]
    generalize (if hasAny = true then fdInter r1i o.ready1r else fdEmpty) = R1
    generalize (if hasAny = true then fdInter w1i o.ready1w else fdEmpty) = W1
    obtain ⟨r2i, w2i, hs2i⟩ := hs2tot R1 W1
    simp only [hs2i]
    by_cases hz : o.sel2zero = true
    · rw [if_pos hz]
      exact ⟨by simp, fun st2 evs h => absurd h (by simp)⟩
    · rw [if_neg hz]
      by_cases he2 : o.sel2err = true
      · rw [if_pos he2]
        exact ⟨by simp, fun st2 evs h => absurd h (by simp)⟩
      · rw [if_neg he2]
        by_cases hsin : (fdInter r2i o.ready2r) st.sockin = true
        · rw [if_pos hsin]
          cases haccept : accept_incoming st o.accRes o.outRes with
          | error f =>
            simp only [haccept]
            refine ⟨?_, fun st2 evs h => absurd h (by simp)⟩
            rcases accept_error_cases haccept with hf | hf <;> simp [hf]
          | ok st1 =>
            simp only [haccept]
            obtain ⟨st2a, evsa, hdt, hOK2, hgood⟩ :=
              dispatch_top_spec st1 (fdUnion (fdInter r2i o.ready2r) R1)
                (fdUnion (fdInter w2i o.ready2w) W1) o.slotEnv
                (stateOK_accept hOK haccept) hor
            simp only [hdt]
            refine ⟨by simp, ?_⟩
            intro st2 evs heq
            cases heq
            exact ⟨hOK2, hgood⟩
        · rw [if_neg hsin]
          obtain ⟨st2a, evsa, hdt, hOK2, hgood⟩ :=
            dispatch_top_spec st (fdUnion (fdInter r2i o.ready2r) R1)
              (fdUnion (fdInter w2i o.ready2w) W1) o.slotEnv hOK hor
          simp only [hdt]
          refine ⟨by simp, ?_⟩
          intro st2 evs heq
          cases heq
          exact ⟨hOK2, hgood⟩

lemma stateOK_init (maxc : Int) (s : Socket) : StateOK (init_state maxc s) := by
  intro i
  refine ⟨by simp [init_state], by simp [init_state], ?_, ?_⟩ <;>
    refine ⟨?_, ?_, ?_, ?_⟩ <;> simp [init_state, BACKLOG_SIZE]

/-- C3: within one poll_conn iteration, a recorded fresh relay
(bounce) for a slot and direction ran with that backlog empty, and no
backlog flush for the same slot and direction occurs in the same
iteration: backlogged bytes are never overtaken by new data. -/
theorem flush_excludes_fresh_relay_same_direction
    (st : State) (o : Oracle) (st2 : State) (evs : List (Nat × Event))
    (hOK : StateOK st) (hor : OracleOK o)
    (hrun : poll_conn st o = Except.ok (st2, evs)) :
    ∀ i d sz ps, (i, Event.bounce d sz ps) ∈ evs →
      sz = 0 ∧ (∀ sz2, (i, Event.flush d sz2) ∉ evs) := by
  intro i d sz ps hmem
  obtain ⟨hsz, _, hnof⟩ :=
    ((poll_conn_spec st o hOK hor).2 st2 evs hrun).2 i d sz ps hmem
  exact ⟨hsz, hnof⟩

/-- C9: from any state satisfying the slot-table invariant, with
socket results obeying the POSIX contracts, one poll_conn iteration
never reaches the fatal backlog-overflow branch of add_backlog: a
relay only appends to an empty backlog, and the appended remainder is
strictly smaller than the scratch-read size, which equals the backlog
capacity. -/
theorem backlog_overflow_unreachable (st : State) (o : Oracle)
    (hOK : StateOK st) (hor : OracleOK o) :
    poll_conn st o ≠ Except.error Fatal.backlogExceeded :=
  (poll_conn_spec st o hOK hor).1

/-- C4: valid_socket returns true on a fully occupied slot, false on a
fully empty slot, and exits fatally on a half-set slot; the both-or-
none invariant holds initially and is preserved by every poll_conn
iteration. -/
theorem slot_handles_both_or_none :
    (∀ st i,
      ((∃ a, (st.slots i).conn_in = some a) →
        (∃ b, (st.slots i).conn_out = some b) →
        valid_socket st i = Except.ok true) ∧
      ((st.slots i).conn_in = none → (st.slots i).conn_out = none →
        valid_socket st i = Except.ok false) ∧
      ((((st.slots i).conn_in = none ∧ (st.slots i).conn_out ≠ none) ∨
        ((st.slots i).conn_in ≠ none ∧ (st.slots i).conn_out = none)) →
        valid_socket st i = Except.error Fatal.inconsistency)) ∧
    (∀ maxc s i, ((init_state maxc s).slots i).conn_in = none ↔
      ((init_state maxc s).slots i).conn_out = none) ∧
    (∀ st o st2 evs, StateOK st → OracleOK o →
      poll_conn st o = Except.ok (st2, evs) →
      ∀ i, ((st2.slots i).conn_in = none ↔ (st2.slots i).conn_out = none)) := by
  refine ⟨?_, ?_, ?_⟩
  · intro st i
    refine ⟨?_, ?_, ?_⟩
    · rintro ⟨a, ha⟩ ⟨b, hb⟩
      simp [valid_socket, ha, hb]
    · intro ha hb
      simp [valid_socket, ha, hb]
    · rintro (⟨ha, hb⟩ | ⟨ha, hb⟩)
      · cases hbv : (st.slots i).conn_out with
        | none => exact absurd hbv hb
        | some b => simp [valid_socket, ha, hbv]
      · cases hav : (st.slots i).conn_in with
        | none => exact absurd hav ha
        | some a => simp [valid_socket, hav, hb]
  · intro maxc s i
    simp [init_state]
  · intro st o st2 evs hOK hor hrun i
    exact (((poll_conn_spec st o hOK hor).2 st2 evs hrun).1 i).1

/-- C8: backlog buffers of every slot start empty at initialisation,
every slot freshly occupied by admission has empty backlog buffers
(length 0, offset 0), and after any poll_conn iteration every
unoccupied slot has empty backlog buffers. -/
theorem fresh_slot_backlogs_empty :
    (∀ maxc s i,
      ((init_state maxc s).slots i).backlog_in.size = 0 ∧
      ((init_state maxc s).slots i).backlog_in.pos = 0 ∧
      ((init_state maxc s).slots i).backlog_out.size = 0 ∧
      ((init_state maxc s).slots i).backlog_out.pos = 0) ∧
    (∀ st a o st2, StateOK st → accept_incoming st a o = Except.ok st2 →
      ∀ i, (st.slots i).conn_in = none →
        (st2.slots i).backlog_in.size = 0 ∧ (st2.slots i).backlog_in.pos = 0 ∧
        (st2.slots i).backlog_out.size = 0 ∧
        (st2.slots i).backlog_out.pos = 0) ∧
    (∀ st o st2 evs, StateOK st → OracleOK o →
      poll_conn st o = Except.ok (st2, evs) →
      ∀ i, (st2.slots i).conn_in = none →
        (st2.slots i).backlog_in.size = 0 ∧ (st2.slots i).backlog_in.pos = 0 ∧
        (st2.slots i).backlog_out.size = 0 ∧
        (st2.slots i).backlog_out.pos = 0) := by
  refine ⟨?_, ?_, ?_⟩
  · intro maxc s i
    simp [init_state]
  · intro st a o st2 hOK hok i hfree
    obtain ⟨hbi, hbo⟩ := accept_backlogs_unchanged hok i
    have hempty := (hOK i).2.1 hfree
    rw [hbi, hbo]
    exact hempty
  · intro st o st2 evs hOK hor hrun i hfree
    exact (((poll_conn_spec st o hOK hor).2 st2 evs hrun).1 i).2.1 hfree

/-- Witness state for the poll_conn level theorems: one occupied slot
with both backlogs empty, table full, listening socket 1. -/
def pollWitState : State :=
  { max_connections := 1
    active_connections := 1
    sockin := 1
    slots := fun _ =>
      { conn_in := some 2
        conn_out := some 3
        backlog_in := { region := fun _ => 0, size := 0, pos := 0 }
        backlog_out := { region := fun _ => 0, size := 0, pos := 0 } } }

/-- Witness oracle: everything ready, no select errors, full sends of
single-byte reads in both directions. -/
def pollWitOracle : Oracle :=
  { ready1r := fun _ => true
    ready1w := fun _ => true
    ready2r := fun _ => true
    ready2w := fun _ => true
    sel1err := false
    sel2err := false
    sel2zero := false
    accRes := none
    outRes := none
    slotEnv := fun _ =>
      { flushInSent := fun _ => 0
        flushOutSent := fun _ => 0
        bounceOutRecvd := 1
        bounceOutBuf := [7]
        bounceOutSent := 1
        bounceInRecvd := 1
        bounceInBuf := [9]
        bounceInSent := 1 } }

def pollWitEvs : List (Nat × Event) :=
  [(0, Event.bounce Direction.OUT 0 0), (0, Event.bounce Direction.IN 0 0)]

lemma pollWitState_OK : StateOK pollWitState := by
  intro i
  refine ⟨by simp [pollWitState], by simp [pollWitState], ?_, ?_⟩ <;>
    refine ⟨?_, ?_, ?_, ?_⟩ <;> simp [pollWitState, BACKLOG_SIZE]

lemma pollWitOracle_OK : OracleOK pollWitOracle := by
  intro i
  refine ⟨?_, ?_, ?_, ?_⟩
  · intro l h
    simp [pollWitOracle] at h
  · intro l h
    simp [pollWitOracle] at h
  · intro h
    simp [pollWitOracle, BACKLOG_SIZE]
  · intro h
    simp [pollWitOracle, BACKLOG_SIZE]

lemma pollWitRun : poll_conn pollWitState pollWitOracle =
    Except.ok (pollWitState, pollWitEvs) := rfl

theorem flush_excludes_fresh_relay_same_direction_witness :
    StateOK pollWitState ∧ OracleOK pollWitOracle ∧
    poll_conn pollWitState pollWitOracle = Except.ok (pollWitState, pollWitEvs) ∧
    (0, Event.bounce Direction.OUT 0 0) ∈ pollWitEvs ∧
    ((0 : Int) = 0 ∧
      ∀ sz2, (0, Event.flush Direction.OUT sz2) ∉ pollWitEvs) :=
  ⟨pollWitState_OK, pollWitOracle_OK, pollWitRun, by simp [pollWitEvs],
   flush_excludes_fresh_relay_same_direction pollWitState pollWitOracle
     pollWitState pollWitEvs pollWitState_OK pollWitOracle_OK pollWitRun
     0 Direction.OUT 0 0 (by simp [pollWitEvs])⟩

theorem backlog_overflow_unreachable_witness :
    StateOK pollWitState ∧ OracleOK pollWitOracle ∧
    poll_conn pollWitState pollWitOracle ≠ Except.error Fatal.backlogExceeded :=
  ⟨pollWitState_OK, pollWitOracle_OK,
   backlog_overflow_unreachable pollWitState pollWitOracle
     pollWitState_OK pollWitOracle_OK⟩

/-- A half-populated slot, as the fatal consistency check must reject. -/
def halfSlotState : State :=
  { max_connections := 1
    active_connections := 1
    sockin := 0
    slots := fun _ =>
      { conn_in := none
        conn_out := some 5
        backlog_in := { region := fun _ => 0, size := 0, pos := 0 }
        backlog_out := { region := fun _ => 0, size := 0, pos := 0 } } }

theorem slot_handles_both_or_none_witness :
    valid_socket halfSlotState 0 = Except.error Fatal.inconsistency ∧
    (StateOK pollWitState ∧ OracleOK pollWitOracle ∧
      ∀ i, ((pollWitState.slots i).conn_in = none ↔
        (pollWitState.slots i).conn_out = none)) :=
  ⟨(slot_handles_both_or_none.1 halfSlotState 0).2.2
      (Or.inl ⟨rfl, by simp [halfSlotState]⟩),
   pollWitState_OK, pollWitOracle_OK,
   slot_handles_both_or_none.2.2 pollWitState pollWitOracle pollWitState
     pollWitEvs pollWitState_OK pollWitOracle_OK pollWitRun⟩

theorem fresh_slot_backlogs_empty_witness :
    StateOK (init_state 1 1) ∧
    ∃ st2, accept_incoming (init_state 1 1) (some 2) (some 3) = Except.ok st2 ∧
      ((init_state 1 1).slots 0).conn_in = none ∧
      (st2.slots 0).conn_in ≠ none ∧
      ((st2.slots 0).backlog_in.size = 0 ∧ (st2.slots 0).backlog_in.pos = 0 ∧
       (st2.slots 0).backlog_out.size = 0 ∧
       (st2.slots 0).backlog_out.pos = 0) :=
  ⟨stateOK_init 1 1,
   ⟨_, rfl, rfl, by decide,
    fresh_slot_backlogs_empty.2.1 (init_state 1 1) (some 2) (some 3) _
      (stateOK_init 1 1) rfl 0 rfl⟩⟩

end Portfwd
